import Mathlib

/-!
# MCP23017 16 channel I2C port expander driver

A shallow embedding of `libraries/MCP23017_RT/MCP23017.cpp` (version 0.2.5).

The driver object is a record holding the bus address, the state of the
`TwoWire` object it talks to, the sticky error field and a ghost log of every
call made on the `TwoWire` object.  Every member function becomes a function
from the driver state to a result and a new driver state.

`uint8_t` values are natural numbers, reduced modulo 256 wherever the C++ code
stores a possibly larger value in a `uint8_t`.
-/

namespace MCP23017

/-! ## Register addresses (`#define`s at the top of MCP23017.cpp) -/

/-- Data direction register, port A. -/
def MCP23017_DDR_A : Nat := 0x00
/-- Data direction register, port B. -/
def MCP23017_DDR_B : Nat := 0x01
/-- Input polarity register, port A. -/
def MCP23017_POL_A : Nat := 0x02
/-- Input polarity register, port B. -/
def MCP23017_POL_B : Nat := 0x03
/-- Pull up resistor register, port A. -/
def MCP23017_PUR_A : Nat := 0x0C
/-- Pull up resistor register, port B. -/
def MCP23017_PUR_B : Nat := 0x0D
/-- IO control register. -/
def MCP23017_IOCR : Nat := 0x0A
/-- GPIO register, port A. -/
def MCP23017_GPIOA : Nat := 0x12
/-- GPIO register, port B. -/
def MCP23017_GPIOB : Nat := 0x13

/-! ## Constants that MCP23017.cpp uses but does not define -/

/-- The constants of `MCP23017.h` and of the Arduino core header that the
driver refers to by name.  Neither header is among the sources, so their
values are parameters of the model: every theorem holds for every choice,
under the assumptions it states.  The error field is taken to store each
error constant unchanged. -/
structure Constants where
  /-- Constant `MCP23017_OK`. -/
  OK : Int
  /-- Constant `MCP23017_PIN_ERROR`. -/
  PIN_ERROR : Int
  /-- Constant `MCP23017_I2C_ERROR`. -/
  I2C_ERROR : Int
  /-- Constant `MCP23017_VALUE_ERROR`. -/
  VALUE_ERROR : Int
  /-- Constant `MCP23017_PORT_ERROR`. -/
  PORT_ERROR : Int
  /-- Constant `MCP23017_INVALID_READ`. -/
  INVALID_READ : Int
  /-- Arduino pin mode `INPUT` -/
  INPUT : Nat
  /-- Arduino pin mode `INPUT_PULLUP` -/
  INPUT_PULLUP : Nat
  /-- Arduino pin mode `OUTPUT` -/
  OUTPUT : Nat

/-- Arduino level `HIGH`. -/
def HIGH : Nat := 1
/-- Arduino level `LOW`. -/
def LOW : Nat := 0

/-- One assignment of the constants, used to evaluate the model at concrete
inputs. -/
def sampleConstants : Constants where
  OK := 0x00
  PIN_ERROR := 0x81
  I2C_ERROR := 0x82
  VALUE_ERROR := 0x83
  PORT_ERROR := 0x84
  INVALID_READ := -100
  INPUT := 0
  INPUT_PULLUP := 2
  OUTPUT := 1

/-- Conversion of an `int` to `uint8_t`. -/
def toUint8 (x : Int) : Nat := (x % 256).toNat

/-! ## The transport (`TwoWire`) -/

/-- A call made on the `TwoWire` object. -/
inductive WireCall where
  | begin
  | beginTransmission (addr : Nat)
  | write (byte : Nat)
  | endTransmission
  | requestFrom (addr : Nat) (count : Nat)
  | read
  deriving DecidableEq, Repr

/-- The behaviour of a `TwoWire` object with internal state `σ`: what each
member function used by the driver returns and how it changes the state.
`endTransmission` and `requestFrom` return a `uint8_t`, `read` an `int`. -/
structure TwoWire (σ : Type) where
  begin : σ → σ
  beginTransmission : Nat → σ → σ
  write : Nat → σ → σ
  endTransmission : σ → Nat × σ
  requestFrom : Nat → Nat → σ → Nat × σ
  read : σ → Int × σ

end MCP23017

/-- The driver object: the private fields `_addr`, `_wire` (here the state of
the object pointed to) and `_error`, and the ghost log `calls` of the calls
made on `_wire`, oldest first. -/
structure MCP23017 (σ : Type) where
  addr : Nat
  wire : σ
  error : Int
  calls : List MCP23017.WireCall

namespace MCP23017

variable {σ : Type}

/-- Constructor `MCP23017(addr, wire)`. -/
def new (c : Constants) (addr : Nat) (wire : σ) : MCP23017 σ :=
  { addr := addr, wire := wire, error := c.OK, calls := [] }

/-! ### Calls on `_wire`, each recorded in the log -/

/-- The call `_wire->begin()`. -/
def wireBegin (w : TwoWire σ) (d : MCP23017 σ) : MCP23017 σ :=
  { d with wire := w.begin d.wire, calls := d.calls ++ [WireCall.begin] }

/-- The call `_wire->beginTransmission(a)`. -/
def wireBeginTransmission (w : TwoWire σ) (d : MCP23017 σ) (a : Nat) : MCP23017 σ :=
  { d with wire := w.beginTransmission a d.wire,
           calls := d.calls ++ [WireCall.beginTransmission a] }

/-- The call `_wire->write(b)`. -/
def wireWrite (w : TwoWire σ) (d : MCP23017 σ) (b : Nat) : MCP23017 σ :=
  { d with wire := w.write b d.wire, calls := d.calls ++ [WireCall.write b] }

/-- The call `_wire->endTransmission()`. -/
def wireEndTransmission (w : TwoWire σ) (d : MCP23017 σ) : Nat × MCP23017 σ :=
  ((w.endTransmission d.wire).1,
   { d with wire := (w.endTransmission d.wire).2,
            calls := d.calls ++ [WireCall.endTransmission] })

/-- The call `_wire->requestFrom(a, n)`. -/
def wireRequestFrom (w : TwoWire σ) (d : MCP23017 σ) (a n : Nat) : Nat × MCP23017 σ :=
  ((w.requestFrom a n d.wire).1,
   { d with wire := (w.requestFrom a n d.wire).2,
            calls := d.calls ++ [WireCall.requestFrom a n] })

/-- The call `_wire->read()`. -/
def wireRead (w : TwoWire σ) (d : MCP23017 σ) : Int × MCP23017 σ :=
  ((w.read d.wire).1,
   { d with wire := (w.read d.wire).2, calls := d.calls ++ [WireCall.read] })

/-! ### Private members -/

/-- Member `bool MCP23017::writeReg(uint8_t reg, uint8_t value)` -/
def writeReg (c : Constants) (w : TwoWire σ) (d : MCP23017 σ) (reg value : Nat) :
    Bool × MCP23017 σ :=
  let d := wireBeginTransmission w d d.addr
  let d := wireWrite w d reg
  let d := wireWrite w d value
  let r := wireEndTransmission w d
  if r.1 ≠ 0 then (false, { r.2 with error := c.I2C_ERROR })
  else (true, { r.2 with error := c.OK })

/-- Member `uint8_t MCP23017::readReg(uint8_t reg)` -/
def readReg (c : Constants) (w : TwoWire σ) (d : MCP23017 σ) (reg : Nat) :
    Nat × MCP23017 σ :=
  let d := wireBeginTransmission w d d.addr
  let d := wireWrite w d reg
  let r := wireEndTransmission w d
  if r.1 ≠ 0 then (0, { r.2 with error := c.I2C_ERROR })
  else
    let d := { r.2 with error := c.OK }
    let q := wireRequestFrom w d d.addr 1
    -- uint8_t n = _wire->requestFrom(_addr, (uint8_t)1);
    let n := q.1 % 256
    if n ≠ 1 then (0, { q.2 with error := c.I2C_ERROR })
    else
      let b := wireRead w q.2
      (toUint8 b.1, b.2)

/-! ### Public members -/

/-- Member `bool MCP23017::isConnected()` -/
def isConnected (c : Constants) (w : TwoWire σ) (d : MCP23017 σ) : Bool × MCP23017 σ :=
  let d := wireBeginTransmission w d d.addr
  let r := wireEndTransmission w d
  if r.1 ≠ 0 then (false, { r.2 with error := c.I2C_ERROR })
  else (true, { r.2 with error := c.OK })

/-- Member `bool MCP23017::begin()` (the variant without pin arguments). -/
def begin (c : Constants) (w : TwoWire σ) (d : MCP23017 σ) : Bool × MCP23017 σ :=
  let d := wireBegin w d
  let r := isConnected c w d
  if !r.1 then (false, r.2)
  else
    let r := writeReg c w r.2 MCP23017_IOCR 0b00100000
    if !r.1 then (false, r.2)
    else
      let r := writeReg c w r.2 MCP23017_PUR_A 0xFF
      if !r.1 then (false, r.2)
      else
        let r := writeReg c w r.2 MCP23017_PUR_B 0xFF
        if !r.1 then (false, r.2)
        else (true, r.2)

/-- The statement `uint8_t mask = 1 << pin;`. -/
def pinMask (pin : Nat) : Nat := (1 <<< pin) % 256

/-- The statement `val |= mask;` on `uint8_t` operands. -/
def setBits (val mask : Nat) : Nat := (val ||| mask) % 256

/-- The statement `val &= ~mask;` on `uint8_t` operands: the operands are promoted to `int`,
so the result converted back to `uint8_t` is `val` with the bits of `mask`
cleared among the low eight. -/
def clearBits (val mask : Nat) : Nat := (val &&& (0xFF ^^^ (mask % 256))) % 256

/-- Member `bool MCP23017::pinMode(uint8_t pin, uint8_t mode)` -/
def pinMode (c : Constants) (w : TwoWire σ) (d : MCP23017 σ) (pin mode : Nat) :
    Bool × MCP23017 σ :=
  if pin > 15 then (false, { d with error := c.PIN_ERROR })
  else if mode ≠ c.INPUT ∧ mode ≠ c.INPUT_PULLUP ∧ mode ≠ c.OUTPUT then
    (false, { d with error := c.VALUE_ERROR })
  else
    let dataDirectionRegister := if pin > 7 then MCP23017_DDR_B else MCP23017_DDR_A
    let pin := if pin > 7 then pin - 8 else pin
    let r := readReg c w d dataDirectionRegister
    if r.2.error ≠ c.OK then (false, r.2)
    else
      let mask := pinMask pin
      let val :=
        if mode = c.INPUT ∨ mode = c.INPUT_PULLUP then setBits r.1 mask
        else if mode = c.OUTPUT then clearBits r.1 mask
        else r.1
      let r := writeReg c w r.2 dataDirectionRegister val
      if r.2.error ≠ c.OK then (false, r.2)
      else (true, r.2)

/-- Member `bool MCP23017::digitalWrite(uint8_t pin, uint8_t value)` -/
def digitalWrite (c : Constants) (w : TwoWire σ) (d : MCP23017 σ) (pin value : Nat) :
    Bool × MCP23017 σ :=
  if pin > 15 then (false, { d with error := c.PIN_ERROR })
  else
    let IOR := if pin > 7 then MCP23017_GPIOB else MCP23017_GPIOA
    let pin := if pin > 7 then pin - 8 else pin
    let r := readReg c w d IOR
    if r.2.error ≠ c.OK then (false, r.2)
    else
      let mask := pinMask pin
      let val := if value ≠ 0 then setBits r.1 mask else clearBits r.1 mask
      let r := writeReg c w r.2 IOR val
      if r.2.error ≠ c.OK then (false, r.2)
      else (true, r.2)

/-- Member `uint8_t MCP23017::digitalRead(uint8_t pin)`; the sentinel
`MCP23017_INVALID_READ` is returned through the `uint8_t` return type. -/
def digitalRead (c : Constants) (w : TwoWire σ) (d : MCP23017 σ) (pin : Nat) :
    Nat × MCP23017 σ :=
  if pin > 15 then (toUint8 c.INVALID_READ, { d with error := c.PIN_ERROR })
  else
    let IOR := if pin > 7 then MCP23017_GPIOB else MCP23017_GPIOA
    let pin := if pin > 7 then pin - 8 else pin
    let r := readReg c w d IOR
    if r.2.error ≠ c.OK then (toUint8 c.INVALID_READ, r.2)
    else
      let mask := pinMask pin
      if r.1 &&& mask ≠ 0 then (HIGH, r.2) else (LOW, r.2)

/-- Member `bool MCP23017::setPolarity(uint8_t pin, bool reversed)` -/
def setPolarity (c : Constants) (w : TwoWire σ) (d : MCP23017 σ) (pin : Nat)
    (reversed : Bool) : Bool × MCP23017 σ :=
  if pin > 15 then (false, { d with error := c.PIN_ERROR })
  else
    let inputPolarityRegister := if pin > 7 then MCP23017_POL_B else MCP23017_POL_A
    let pin := if pin > 7 then pin - 8 else pin
    let r := readReg c w d inputPolarityRegister
    if r.2.error ≠ c.OK then (false, r.2)
    else
      let mask := pinMask pin
      let val := if reversed then setBits r.1 mask else clearBits r.1 mask
      let r := writeReg c w r.2 inputPolarityRegister val
      if r.2.error ≠ c.OK then (false, r.2)
      else (true, r.2)

/-- Member `bool MCP23017::getPolarity(uint8_t pin, bool &reversed)`; the result is
the return value, the final content of `reversed` (given its content `reversed`
before the call) and the new driver state. -/
def getPolarity (c : Constants) (w : TwoWire σ) (d : MCP23017 σ) (pin : Nat)
    (reversed : Bool) : Bool × Bool × MCP23017 σ :=
  if pin > 15 then (false, reversed, { d with error := c.PIN_ERROR })
  else
    let inputPolarityRegister := if pin > 7 then MCP23017_POL_B else MCP23017_POL_A
    let pin := if pin > 7 then pin - 8 else pin
    let r := readReg c w d inputPolarityRegister
    if r.2.error ≠ c.OK then (false, reversed, r.2)
    else
      let mask := pinMask pin
      (true, decide (r.1 &&& mask > 0), r.2)

/-- Member `bool MCP23017::setPullup(uint8_t pin, bool pullup)` -/
def setPullup (c : Constants) (w : TwoWire σ) (d : MCP23017 σ) (pin : Nat)
    (pullup : Bool) : Bool × MCP23017 σ :=
  if pin > 15 then (false, { d with error := c.PIN_ERROR })
  else
    let inputPullupRegister := if pin > 7 then MCP23017_PUR_B else MCP23017_PUR_A
    let pin := if pin > 7 then pin - 8 else pin
    let r := readReg c w d inputPullupRegister
    if r.2.error ≠ c.OK then (false, r.2)
    else
      let mask := pinMask pin
      let val := if pullup then setBits r.1 mask else clearBits r.1 mask
      let r := writeReg c w r.2 inputPullupRegister val
      if r.2.error ≠ c.OK then (false, r.2)
      else (true, r.2)

/-- Member `bool MCP23017::getPullup(uint8_t pin, bool &pullup)`; the result is the
return value, the final content of `pullup` and the new driver state. -/
def getPullup (c : Constants) (w : TwoWire σ) (d : MCP23017 σ) (pin : Nat)
    (pullup : Bool) : Bool × Bool × MCP23017 σ :=
  if pin > 15 then (false, pullup, { d with error := c.PIN_ERROR })
  else
    let inputPullupRegister := if pin > 7 then MCP23017_PUR_B else MCP23017_PUR_A
    let pin := if pin > 7 then pin - 8 else pin
    let r := readReg c w d inputPullupRegister
    if r.2.error ≠ c.OK then (false, pullup, r.2)
    else
      let mask := pinMask pin
      (true, decide (r.1 &&& mask > 0), r.2)

/-! ### 8 pins interface -/

/-- Member `bool MCP23017::pinMode8(uint8_t port, uint8_t value)` -/
def pinMode8 (c : Constants) (w : TwoWire σ) (d : MCP23017 σ) (port value : Nat) :
    Bool × MCP23017 σ :=
  if port > 1 then (false, { d with error := c.PORT_ERROR })
  else
    let d := if port = 0 then (writeReg c w d MCP23017_DDR_A value).2 else d
    let d := if port = 1 then (writeReg c w d MCP23017_DDR_B value).2 else d
    (true, { d with error := c.OK })

/-- Member `bool MCP23017::write8(uint8_t port, uint8_t value)` -/
def write8 (c : Constants) (w : TwoWire σ) (d : MCP23017 σ) (port value : Nat) :
    Bool × MCP23017 σ :=
  if port > 1 then (false, { d with error := c.PORT_ERROR })
  else
    let d := if port = 0 then (writeReg c w d MCP23017_GPIOA value).2 else d
    let d := if port = 1 then (writeReg c w d MCP23017_GPIOB value).2 else d
    (true, { d with error := c.OK })

/-- Member `int MCP23017::read8(uint8_t port)` -/
def read8 (c : Constants) (w : TwoWire σ) (d : MCP23017 σ) (port : Nat) :
    Int × MCP23017 σ :=
  if port > 1 then (c.INVALID_READ, { d with error := c.PORT_ERROR })
  else
    let d := { d with error := c.OK }
    if port = 0 then
      let r := readReg c w d MCP23017_GPIOA
      ((r.1 : Int), r.2)
    else
      let r := readReg c w d MCP23017_GPIOB
      ((r.1 : Int), r.2)

/-- Member `bool MCP23017::setPolarity8(uint8_t port, uint8_t mask)` -/
def setPolarity8 (c : Constants) (w : TwoWire σ) (d : MCP23017 σ) (port mask : Nat) :
    Bool × MCP23017 σ :=
  if port > 1 then (false, { d with error := c.PORT_ERROR })
  else
    let d := if port = 0 then (writeReg c w d MCP23017_POL_A mask).2 else d
    let d := if port = 1 then (writeReg c w d MCP23017_POL_B mask).2 else d
    if d.error ≠ c.OK then (false, d)
    else (true, d)

/-- Member `bool MCP23017::getPolarity8(uint8_t port, uint8_t &mask)`; the result is
the return value, the final content of `mask` and the new driver state. -/
def getPolarity8 (c : Constants) (w : TwoWire σ) (d : MCP23017 σ) (port mask : Nat) :
    Bool × Nat × MCP23017 σ :=
  if port > 1 then (false, mask, { d with error := c.PORT_ERROR })
  else
    let r := if port = 0 then readReg c w d MCP23017_POL_A else (mask, d)
    let r := if port = 1 then readReg c w r.2 MCP23017_POL_B else r
    if r.2.error ≠ c.OK then (false, r.1, r.2)
    else (true, r.1, r.2)

/-- Member `bool MCP23017::setPullup8(uint8_t port, uint8_t mask)` -/
def setPullup8 (c : Constants) (w : TwoWire σ) (d : MCP23017 σ) (port mask : Nat) :
    Bool × MCP23017 σ :=
  if port > 1 then (false, { d with error := c.PORT_ERROR })
  else
    let d := if port = 0 then (writeReg c w d MCP23017_PUR_A mask).2 else d
    let d := if port = 1 then (writeReg c w d MCP23017_PUR_B mask).2 else d
    if d.error ≠ c.OK then (false, d)
    else (true, d)

/-- Member `bool MCP23017::getPullup8(uint8_t port, uint8_t &mask)`; the result is the
return value, the final content of `mask` and the new driver state. -/
def getPullup8 (c : Constants) (w : TwoWire σ) (d : MCP23017 σ) (port mask : Nat) :
    Bool × Nat × MCP23017 σ :=
  if port > 1 then (false, mask, { d with error := c.PORT_ERROR })
  else
    let r := if port = 0 then readReg c w d MCP23017_PUR_A else (mask, d)
    let r := if port = 1 then readReg c w r.2 MCP23017_PUR_B else r
    if r.2.error ≠ c.OK then (false, r.1, r.2)
    else (true, r.1, r.2)

/-- Member `int MCP23017::lastError()` -/
def lastError (c : Constants) (d : MCP23017 σ) : Int × MCP23017 σ :=
  let e := d.error
  (e, { d with error := c.OK })

/-! ## Transports

The `TwoWire` class belongs to the Arduino core, not to the library.  The
properties that speak of a particular bus are stated over the following two
instances of `TwoWire`: a register bank that always acknowledges, and a bus
that fails on a given schedule. -/

/-- State of a bus with one MCP23017 attached that acknowledges everything:
the content of the device registers, the bytes queued since
`beginTransmission`, the device register pointer and the bytes received by
the last `requestFrom`. -/
structure RegisterBank where
  regs : Nat → Nat
  txbuf : List Nat
  pointer : Nat
  rxbuf : List Nat

/-- Store `v` in register `r`. -/
def RegisterBank.store (regs : Nat → Nat) (r v : Nat) : Nat → Nat :=
  fun x => if x = r then v else regs x

/-- A `TwoWire` bound to a stateful register bank that always acknowledges.
A transaction `[reg]` selects register `reg`; a transaction `[reg, value, ..]`
also stores `value` in it; a request for `n` bytes delivers `n` times the
selected register (address increment is off); bytes travel as `uint8_t`. -/
def registerBank : TwoWire RegisterBank where
  begin := fun s => s
  beginTransmission := fun _ s => { s with txbuf := [] }
  write := fun b s => { s with txbuf := s.txbuf ++ [b % 256] }
  endTransmission := fun s =>
    match s.txbuf with
    | [] => (0, s)
    | [r] => (0, { s with pointer := r, txbuf := [] })
    | r :: v :: _ =>
      (0, { s with regs := RegisterBank.store s.regs r v, pointer := r, txbuf := [] })
  requestFrom := fun _ n s =>
    (n, { s with rxbuf := List.replicate n (s.regs s.pointer % 256) })
  read := fun s =>
    match s.rxbuf with
    | [] => (-1, s)
    | b :: rest => ((b : Int), { s with rxbuf := rest })

/-- A register bank in which every register holds `v`. -/
def RegisterBank.filled (v : Nat) : RegisterBank :=
  { regs := fun _ => v, txbuf := [], pointer := 0, rxbuf := [] }

/-- State of a `TwoWire` whose transactions complete with the statuses listed,
one per `endTransmission` (status 0 once the list is used up), and that
reports `count` bytes available and hands out `byte` on every request. -/
structure Scripted where
  statuses : List Nat
  count : Nat
  byte : Int

/-- Behaviour of the scripted Transport Port. -/
def scripted : TwoWire Scripted where
  begin := fun s => s
  beginTransmission := fun _ s => s
  write := fun _ s => s
  endTransmission := fun s =>
    match s.statuses with
    | [] => (0, s)
    | st :: rest => (st, { s with statuses := rest })
  requestFrom := fun _ _ s => (s.count, s)
  read := fun s => (s.byte, s)

/-- A transport acknowledges when every transaction completes with status 0
and every request for one byte delivers exactly one byte. -/
def Acknowledges (w : TwoWire σ) : Prop :=
  (∀ s, (w.endTransmission s).1 = 0) ∧ (∀ a s, (w.requestFrom a 1 s).1 = 1)

end MCP23017

namespace MCP23017

variable {σ : Type}

/-- The driver state `d'` differs from `d` at most in the error field, which
holds `e`: nothing was sent to or asked from the transport. -/
def RejectedWith (d d' : MCP23017 σ) (e : Int) : Prop :=
  d'.error = e ∧ d'.calls = d.calls ∧ d'.wire = d.wire ∧ d'.addr = d.addr

/-- The zero length transaction by which address `a` is probed, run on the
transport state `s`: completion status and next transport state. -/
def probeTransaction (w : TwoWire σ) (a : Nat) (s : σ) : Nat × σ :=
  w.endTransmission (w.beginTransmission a s)

/-- The transaction that sends the two bytes `reg`, `value` to address `a`, run
on the transport state `s`: completion status and next transport state. -/
def writeTransaction (w : TwoWire σ) (a reg value : Nat) (s : σ) : Nat × σ :=
  w.endTransmission (w.write value (w.write reg (w.beginTransmission a s)))

/-- The transaction that sends the single byte `reg` to address `a`, run on
the transport state `s`: completion status and next transport state. -/
def addressTransaction (w : TwoWire σ) (a reg : Nat) (s : σ) : Nat × σ :=
  w.endTransmission (w.write reg (w.beginTransmission a s))

/-- The request for one byte from address `a` that follows the addressing of
register `reg`: number of bytes reported and next transport state. -/
def byteRequest (w : TwoWire σ) (a reg : Nat) (s : σ) : Nat × σ :=
  w.requestFrom a 1 (addressTransaction w a reg s).2

/-- Driver state after an access to register `reg` that stopped at the failed
addressing transaction. -/
def stoppedAfterAddressing (c : Constants) (w : TwoWire σ) (d : MCP23017 σ) (reg : Nat) :
    MCP23017 σ :=
  { addr := d.addr, wire := (addressTransaction w d.addr reg d.wire).2,
    error := c.I2C_ERROR,
    calls := d.calls ++ [WireCall.beginTransmission d.addr, WireCall.write reg,
      WireCall.endTransmission] }

/-- Driver state after an access to register `reg` that stopped at the byte
request, which did not report one byte. -/
def stoppedAfterRequest (c : Constants) (w : TwoWire σ) (d : MCP23017 σ) (reg : Nat) :
    MCP23017 σ :=
  { addr := d.addr, wire := (byteRequest w d.addr reg d.wire).2,
    error := c.I2C_ERROR,
    calls := d.calls ++ [WireCall.beginTransmission d.addr, WireCall.write reg,
      WireCall.endTransmission, WireCall.requestFrom d.addr 1] }

/-- A register bank whose byte requests never deliver: `requestFrom` reports
0 bytes and leaves the bank as it is. -/
def silentBank : TwoWire RegisterBank :=
  { registerBank with requestFrom := fun _ _ s => (0, s) }

/-- The operation with result `result`, run from state `d`, was abandoned at
the failed read of register `reg`: whichever way the read fails (non-zero
completion status of the addressing transaction, or a byte request that does
not report one byte), the operation returns `false` and the driver is left
in the state reached by the failed read alone, its error field holding
`MCP23017_I2C_ERROR`. -/
def AbandonedOnReadFailure (c : Constants) (w : TwoWire σ) (d : MCP23017 σ) (reg : Nat)
    (result : Bool × MCP23017 σ) : Prop :=
  ((addressTransaction w d.addr reg d.wire).1 ≠ 0 →
    result = (false, stoppedAfterAddressing c w d reg)) ∧
  ((addressTransaction w d.addr reg d.wire).1 = 0 →
    (byteRequest w d.addr reg d.wire).1 % 256 ≠ 1 →
    result = (false, stoppedAfterRequest c w d reg))

end MCP23017

/-!
# MultiMap: piecewise linear mapping of a value

A shallow embedding of the template function `multiMap` of
`libraries/MultiMap/MultiMap.h` (version 0.1.5).  The arguments `T* _in` and
`T* _out` are index functions; together with `size` they stand for arrays of
`size` elements, and an access outside `0 .. size-1` makes the run fail
(result `none`), as does a division by zero.

The comparisons of the function are the same for every integer type `T`.  Its
arithmetic is given twice: `interpolate` and `multiMap` compute in exact
(unbounded) integers; `interpolateT` and `multiMapT` compute in a signed
integer type `T` of `bits` bits that is at least as wide as `int`, where every
operation wraps around.
-/

namespace MultiMap

/-- The access `a[i]` to an array of `size` elements; the index is an `int`
expression such as `size-1` or `pos-1`. -/
def readAt (a : Nat → Int) (size : Nat) (i : Int) : Option Int :=
  if 0 ≤ i ∧ i < (size : Int) then some (a i.toNat) else none

/-- Number of iterations after which the search loop is given up: `pos` is a
`uint8_t`, so a run of 256 iterations has tried every value of `pos` on the
same data and will never stop. -/
def searchFuel : Nat := 256

/-- The loop `while(value > _in[pos]) pos++;` started at `pos` with `fuel`
iterations left; the result is the value of `pos` at the exit. -/
def search (value : Int) (_in : Nat → Int) (size : Nat) : Nat → Nat → Option Nat
  | 0, _ => none
  | fuel + 1, pos =>
    match readAt _in size (pos : Int) with
    | none => none
    | some x =>
      if value > x then search value _in size fuel ((pos + 1) % 256)
      else some pos

/-- The statements of `multiMap` after the search loop has left `pos`: the
exact points of the table and the interpolation, whose division truncates,
computed in exact (unbounded) integer arithmetic. -/
def interpolate (value : Int) (_in _out : Nat → Int) (size pos : Nat) : Option Int :=
  match readAt _in size (pos : Int) with
  | none => none
  | some inPos =>
    if value = inPos then readAt _out size (pos : Int)
    else
      match readAt _in size ((pos : Int) - 1), readAt _out size (pos : Int),
          readAt _out size ((pos : Int) - 1) with
      | some inPrev, some outPos, some outPrev =>
        if inPos - inPrev = 0 then none
        else some (Int.tdiv ((value - inPrev) * (outPos - outPrev)) (inPos - inPrev) + outPrev)
      | _, _, _ => none

/-- The template `T multiMap(T value, T* _in, T* _out, uint8_t size)` in exact
(unbounded) integer arithmetic. -/
def multiMap (value : Int) (_in _out : Nat → Int) (size : Nat) : Option Int :=
  match readAt _in size 0 with
  | none => none
  | some inFirst =>
    if value ≤ inFirst then readAt _out size 0
    else
      match readAt _in size ((size : Int) - 1) with
      | none => none
      | some inLast =>
        if value ≥ inLast then readAt _out size ((size : Int) - 1)
        else
          match search value _in size searchFuel 1 with
          | none => none
          | some pos => interpolate value _in _out size pos

/-- The first `size` elements of `a` are strictly increasing. -/
def StrictlyIncreasing (a : Nat → Int) (size : Nat) : Prop :=
  ∀ i j, i < j → j < size → a i < a j

/-- The array holding the elements of `xs`. -/
def ofList (xs : List Int) : Nat → Int := fun i => xs.getD i 0

end MultiMap

namespace MCP23017

variable {σ : Type}

/-! ## Auxiliary facts -/

theorem pinMask_eq (k : Nat) (hk : k < 8) : pinMask k = 2 ^ k := by
  unfold pinMask
  rw [Nat.one_shiftLeft]
  apply Nat.mod_eq_of_lt
  calc 2 ^ k < 2 ^ 8 := Nat.pow_lt_pow_right (by decide) hk
    _ = 256 := by norm_num

theorem testBit_setBits (v k j : Nat) (hk : k < 8) (hj : j < 8) :
    (setBits v (pinMask k)).testBit j = (v.testBit j || decide (k = j)) := by
  rw [pinMask_eq k hk]
  unfold setBits
  rw [show (256 : Nat) = 2 ^ 8 by norm_num, Nat.testBit_mod_two_pow, Nat.testBit_or,
    Nat.testBit_two_pow]
  simp [hj]

theorem testBit_clearBits (v k j : Nat) (hk : k < 8) (hj : j < 8) :
    (clearBits v (pinMask k)).testBit j = (v.testBit j && !decide (k = j)) := by
  rw [pinMask_eq k hk]
  unfold clearBits
  have h255 : (0xFF : Nat) = 2 ^ 8 - 1 := by norm_num
  rw [show (256 : Nat) = 2 ^ 8 by norm_num, Nat.testBit_mod_two_pow, Nat.testBit_and,
    Nat.testBit_xor, Nat.testBit_mod_two_pow, Nat.testBit_two_pow, h255,
    Nat.testBit_two_pow_sub_one]
  simp [hj]

theorem setBits_lt (v m : Nat) : setBits v m < 256 := Nat.mod_lt _ (by decide)
theorem clearBits_lt (v m : Nat) : clearBits v m < 256 := Nat.mod_lt _ (by decide)

theorem and_pinMask_ne_zero (v k : Nat) (hk : k < 8) :
    (v &&& pinMask k ≠ 0) ↔ v.testBit k = true := by
  rw [pinMask_eq k hk]
  rw [Nat.and_two_pow]
  cases h : v.testBit k <;> simp

theorem testBit_mod_256 (n j : Nat) (hj : j < 8) : (n % 256).testBit j = n.testBit j := by
  rw [show (256 : Nat) = 2 ^ 8 by norm_num, Nat.testBit_mod_two_pow]
  simp [hj]

theorem toUint8_byte (n : Nat) : toUint8 ((n : Int) % 256) = n % 256 := by
  unfold toUint8
  omega

theorem acknowledges_registerBank : Acknowledges registerBank := by
  constructor
  · intro s
    simp only [registerBank]
    split <;> rfl
  · intro a s
    rfl

/-- Reading a register of the bank: the byte held by the register, the
register selected, five calls logged, error field cleared. -/
theorem readReg_registerBank (c : Constants) (d : MCP23017 RegisterBank) (reg : Nat) :
    readReg c registerBank d reg =
      (d.wire.regs (reg % 256) % 256,
       { addr := d.addr,
         wire := { regs := d.wire.regs, txbuf := [], pointer := reg % 256, rxbuf := [] },
         error := c.OK,
         calls := d.calls ++ [WireCall.beginTransmission d.addr, WireCall.write reg,
           WireCall.endTransmission, WireCall.requestFrom d.addr 1, WireCall.read] }) := by
  simp [readReg, wireBeginTransmission, wireWrite, wireEndTransmission, wireRequestFrom,
    wireRead, registerBank, toUint8_byte]

/-- Writing a register of the bank: the byte is stored, four calls logged,
error field cleared. -/
theorem writeReg_registerBank (c : Constants) (d : MCP23017 RegisterBank) (reg v : Nat) :
    writeReg c registerBank d reg v =
      (true,
       { addr := d.addr,
         wire := { regs := RegisterBank.store d.wire.regs (reg % 256) (v % 256),
                   txbuf := [], pointer := reg % 256, rxbuf := d.wire.rxbuf },
         error := c.OK,
         calls := d.calls ++ [WireCall.beginTransmission d.addr, WireCall.write reg,
           WireCall.write v, WireCall.endTransmission] }) := by
  simp [writeReg, wireBeginTransmission, wireWrite, wireEndTransmission, registerBank]

/-- On an acknowledging transport `readReg` leaves the error field cleared. -/
theorem readReg_error_of_acknowledges (c : Constants) (w : TwoWire σ)
    (hack : Acknowledges w) (d : MCP23017 σ) (reg : Nat) :
    (readReg c w d reg).2.error = c.OK := by
  simp [readReg, wireBeginTransmission, wireWrite, wireEndTransmission, wireRequestFrom,
    wireRead, hack.1, hack.2]

/-- On an acknowledging transport `writeReg` succeeds and leaves the error
field cleared. -/
theorem writeReg_of_acknowledges (c : Constants) (w : TwoWire σ)
    (hack : Acknowledges w) (d : MCP23017 σ) (reg v : Nat) :
    (writeReg c w d reg v).1 = true ∧ (writeReg c w d reg v).2.error = c.OK := by
  simp [writeReg, wireBeginTransmission, wireWrite, wireEndTransmission, hack.1]

/-- A read-modify-write of bit `k` of register `r`: the bit takes the value
`set`, the other seven bits of `r` and all other registers are kept. -/
theorem store_bit_update (regs : Nat → Nat) (r k : Nat) (set : Bool) (hk : k < 8) :
    (RegisterBank.store regs r
        ((if set = true then setBits (regs r % 256) (pinMask k)
          else clearBits (regs r % 256) (pinMask k)) % 256) r).testBit k = set ∧
    (∀ j, j < 8 → j ≠ k →
      (RegisterBank.store regs r
        ((if set = true then setBits (regs r % 256) (pinMask k)
          else clearBits (regs r % 256) (pinMask k)) % 256) r).testBit j
        = (regs r).testBit j) ∧
    (∀ reg, reg ≠ r →
      RegisterBank.store regs r
        ((if set = true then setBits (regs r % 256) (pinMask k)
          else clearBits (regs r % 256) (pinMask k)) % 256) reg = regs reg) := by
  refine ⟨?_, ?_, ?_⟩
  · cases set
    · simp [RegisterBank.store, Nat.mod_eq_of_lt (clearBits_lt _ _),
        testBit_clearBits _ _ _ hk hk]
    · simp [RegisterBank.store, Nat.mod_eq_of_lt (setBits_lt _ _),
        testBit_setBits _ _ _ hk hk]
  · intro j hj hne
    have hne2 : ¬ k = j := fun h => hne h.symm
    cases set
    · simp [RegisterBank.store, Nat.mod_eq_of_lt (clearBits_lt _ _),
        testBit_clearBits _ _ _ hk hj, hne2, testBit_mod_256 _ _ hj]
    · simp [RegisterBank.store, Nat.mod_eq_of_lt (setBits_lt _ _),
        testBit_setBits _ _ _ hk hj, hne2, testBit_mod_256 _ _ hj]
  · intro reg hreg
    simp [RegisterBank.store, hreg]

/-- Port selection of the single pin operations: register `ra` and bit `pin`
for pins below 8, register `rb` and bit `pin - 8` above. -/
theorem pin_split (pin : Nat) (hpin : pin < 16) :
    (pin < 8 ∧ ¬ pin > 7 ∧ pin % 8 = pin) ∨ (¬ pin < 8 ∧ pin > 7 ∧ pin % 8 = pin - 8) := by
  omega

/-- On a register bank `pinMode` with a valid mode succeeds and stores the
updated data direction byte. -/
theorem pinMode_registerBank (c : Constants) (d : MCP23017 RegisterBank)
    (pin mode : Nat) (hpin : pin < 16)
    (hmode : mode = c.INPUT ∨ mode = c.INPUT_PULLUP ∨ mode = c.OUTPUT) :
    (pinMode c registerBank d pin mode).1 = true ∧
    (pinMode c registerBank d pin mode).2.wire.regs =
      RegisterBank.store d.wire.regs (if pin < 8 then 0x00 else 0x01)
        ((if decide (mode = c.INPUT ∨ mode = c.INPUT_PULLUP) = true
          then setBits (d.wire.regs (if pin < 8 then 0x00 else 0x01) % 256) (pinMask (pin % 8))
          else clearBits (d.wire.regs (if pin < 8 then 0x00 else 0x01) % 256)
            (pinMask (pin % 8))) % 256) := by
  have hp : ¬ pin > 15 := by omega
  have hvalid : ¬ (mode ≠ c.INPUT ∧ mode ≠ c.INPUT_PULLUP ∧ mode ≠ c.OUTPUT) := by
    rintro ⟨h1, h2, h3⟩
    rcases hmode with h | h | h
    · exact h1 h
    · exact h2 h
    · exact h3 h
  have hout : ¬ (mode = c.INPUT ∨ mode = c.INPUT_PULLUP) → mode = c.OUTPUT := by
    intro h
    rcases hmode with h' | h' | h'
    · exact absurd (Or.inl h') h
    · exact absurd (Or.inr h') h
    · exact h'
  unfold pinMode
  rw [if_neg hp, if_neg hvalid]
  rcases pin_split pin hpin with ⟨h8, h7, hmod⟩ | ⟨h8, h7, hmod⟩
  · simp only [h7, if_false, h8, if_true, readReg_registerBank, writeReg_registerBank,
      hmod, MCP23017_DDR_A]
    by_cases hin : mode = c.INPUT ∨ mode = c.INPUT_PULLUP
    · simp [hin]
    · simp [hin, hout hin]
  · simp only [h7, if_true, h8, if_false, readReg_registerBank, writeReg_registerBank,
      hmod, MCP23017_DDR_B]
    by_cases hin : mode = c.INPUT ∨ mode = c.INPUT_PULLUP
    · simp [hin]
    · simp [hin, hout hin]

/-- On a register bank `setPolarity` succeeds and stores the updated polarity byte. -/
theorem setPolarity_registerBank (c : Constants) (d : MCP23017 RegisterBank)
    (pin : Nat) (flag : Bool) (hpin : pin < 16) :
    (setPolarity c registerBank d pin flag).1 = true ∧
    (setPolarity c registerBank d pin flag).2.wire.regs =
      RegisterBank.store d.wire.regs (if pin < 8 then 0x02 else 0x03)
        ((if flag = true
          then setBits (d.wire.regs (if pin < 8 then 0x02 else 0x03) % 256) (pinMask (pin % 8))
          else clearBits (d.wire.regs (if pin < 8 then 0x02 else 0x03) % 256)
            (pinMask (pin % 8))) % 256) := by
  have hp : ¬ pin > 15 := by omega
  unfold setPolarity
  rw [if_neg hp]
  rcases pin_split pin hpin with ⟨h8, h7, hmod⟩ | ⟨h8, h7, hmod⟩
  · simp only [h7, if_false, h8, if_true, readReg_registerBank, writeReg_registerBank,
      hmod, MCP23017_POL_A]
    cases flag <;> simp
  · simp only [h7, if_true, h8, if_false, readReg_registerBank, writeReg_registerBank,
      hmod, MCP23017_POL_B]
    cases flag <;> simp

/-- On a register bank `getPolarity` succeeds, yields the polarity bit of the pin
and changes no register. -/
theorem getPolarity_registerBank (c : Constants) (d : MCP23017 RegisterBank)
    (pin : Nat) (flag : Bool) (hpin : pin < 16) :
    (getPolarity c registerBank d pin flag).1 = true ∧
    (getPolarity c registerBank d pin flag).2.1 =
      (d.wire.regs (if pin < 8 then 0x02 else 0x03)).testBit (pin % 8) ∧
    (getPolarity c registerBank d pin flag).2.2.wire.regs = d.wire.regs := by
  have hp : ¬ pin > 15 := by omega
  have hbit : ∀ v k : Nat, k < 8 → decide (v % 256 &&& pinMask k > 0) = v.testBit k := by
    intro v k hk
    have h := and_pinMask_ne_zero (v % 256) k hk
    rw [testBit_mod_256 _ _ hk] at h
    cases hb : v.testBit k
    · have hz : ¬ (v % 256 &&& pinMask k ≠ 0) := fun hne => by
        rw [h.1 hne] at hb
        exact Bool.noConfusion hb
      simp only [ne_eq, not_not] at hz
      simp [hz]
    · have hnz := h.2 hb
      simp [Nat.pos_of_ne_zero hnz]
  unfold getPolarity
  rw [if_neg hp]
  rcases pin_split pin hpin with ⟨h8, h7, hmod⟩ | ⟨h8, h7, hmod⟩
  · simp only [h7, if_false, h8, if_true, readReg_registerBank, hmod, MCP23017_POL_A]
    simp [hbit _ _ h8]
  · have hk : pin - 8 < 8 := by omega
    simp only [h7, if_true, h8, if_false, readReg_registerBank, hmod, MCP23017_POL_B]
    simp [hbit _ _ hk]

/-- On a register bank `setPullup` succeeds and stores the updated pull up byte. -/
theorem setPullup_registerBank (c : Constants) (d : MCP23017 RegisterBank)
    (pin : Nat) (flag : Bool) (hpin : pin < 16) :
    (setPullup c registerBank d pin flag).1 = true ∧
    (setPullup c registerBank d pin flag).2.wire.regs =
      RegisterBank.store d.wire.regs (if pin < 8 then 0x0C else 0x0D)
        ((if flag = true
          then setBits (d.wire.regs (if pin < 8 then 0x0C else 0x0D) % 256) (pinMask (pin % 8))
          else clearBits (d.wire.regs (if pin < 8 then 0x0C else 0x0D) % 256)
            (pinMask (pin % 8))) % 256) := by
  have hp : ¬ pin > 15 := by omega
  unfold setPullup
  rw [if_neg hp]
  rcases pin_split pin hpin with ⟨h8, h7, hmod⟩ | ⟨h8, h7, hmod⟩
  · simp only [h7, if_false, h8, if_true, readReg_registerBank, writeReg_registerBank,
      hmod, MCP23017_PUR_A]
    cases flag <;> simp
  · simp only [h7, if_true, h8, if_false, readReg_registerBank, writeReg_registerBank,
      hmod, MCP23017_PUR_B]
    cases flag <;> simp

/-- On a register bank `getPullup` succeeds, yields the pull up bit of the pin
and changes no register. -/
theorem getPullup_registerBank (c : Constants) (d : MCP23017 RegisterBank)
    (pin : Nat) (flag : Bool) (hpin : pin < 16) :
    (getPullup c registerBank d pin flag).1 = true ∧
    (getPullup c registerBank d pin flag).2.1 =
      (d.wire.regs (if pin < 8 then 0x0C else 0x0D)).testBit (pin % 8) ∧
    (getPullup c registerBank d pin flag).2.2.wire.regs = d.wire.regs := by
  have hp : ¬ pin > 15 := by omega
  have hbit : ∀ v k : Nat, k < 8 → decide (v % 256 &&& pinMask k > 0) = v.testBit k := by
    intro v k hk
    have h := and_pinMask_ne_zero (v % 256) k hk
    rw [testBit_mod_256 _ _ hk] at h
    cases hb : v.testBit k
    · have hz : ¬ (v % 256 &&& pinMask k ≠ 0) := fun hne => by
        rw [h.1 hne] at hb
        exact Bool.noConfusion hb
      simp only [ne_eq, not_not] at hz
      simp [hz]
    · have hnz := h.2 hb
      simp [Nat.pos_of_ne_zero hnz]
  unfold getPullup
  rw [if_neg hp]
  rcases pin_split pin hpin with ⟨h8, h7, hmod⟩ | ⟨h8, h7, hmod⟩
  · simp only [h7, if_false, h8, if_true, readReg_registerBank, hmod, MCP23017_PUR_A]
    simp [hbit _ _ h8]
  · have hk : pin - 8 < 8 := by omega
    simp only [h7, if_true, h8, if_false, readReg_registerBank, hmod, MCP23017_PUR_B]
    simp [hbit _ _ hk]

/-- A read-modify-write of the bit of pin `pin` in the register pair `ra`,
`rb` leaves the bit of every other pin `q` as it was. -/
theorem store_bit_update_other_pin (regs : Nat → Nat) (ra rb pin q : Nat) (set : Bool)
    (hab : ra ≠ rb) (hpin : pin < 16) (hq : q < 16) (hne : q ≠ pin) :
    (RegisterBank.store regs (if pin < 8 then ra else rb)
        ((if set = true
          then setBits (regs (if pin < 8 then ra else rb) % 256) (pinMask (pin % 8))
          else clearBits (regs (if pin < 8 then ra else rb) % 256) (pinMask (pin % 8))) % 256)
        (if q < 8 then ra else rb)).testBit (q % 8)
      = (regs (if q < 8 then ra else rb)).testBit (q % 8) := by
  have hk : pin % 8 < 8 := Nat.mod_lt _ (by decide)
  have hj : q % 8 < 8 := Nat.mod_lt _ (by decide)
  have hupd := store_bit_update regs (if pin < 8 then ra else rb) (pin % 8) set hk
  by_cases hsame : (q < 8 ↔ pin < 8)
  · have hreg : (if q < 8 then ra else rb) = (if pin < 8 then ra else rb) := by
      by_cases h : pin < 8
      · simp [h, hsame.2 h]
      · have hq8 : ¬ q < 8 := fun hq8 => h (hsame.1 hq8)
        simp [h, hq8]
    have hbits : q % 8 ≠ pin % 8 := by
      by_cases h : pin < 8
      · have := hsame.2 h
        omega
      · have hq8 : ¬ q < 8 := fun hq8 => h (hsame.1 hq8)
        omega
    rw [hreg]
    exact hupd.2.1 (q % 8) hj hbits
  · have hreg : (if q < 8 then ra else rb) ≠ (if pin < 8 then ra else rb) := by
      by_cases h : pin < 8
      · have hq8 : ¬ q < 8 := fun hq8 => hsame ⟨fun _ => h, fun _ => hq8⟩
        simp [h, hq8, hab.symm]
      · have hq8 : q < 8 := by
          by_contra hq8
          exact hsame ⟨fun h' => absurd h' hq8, fun h' => absurd h' h⟩
        simp [h, hq8, hab]
    rw [hupd.2.2 _ hreg]

/-- The outcome of `readReg` when the addressing transaction fails: 0 is
returned and no byte is requested. -/
theorem readReg_of_status_ne_zero (c : Constants) (w : TwoWire σ) (d : MCP23017 σ)
    (reg : Nat) (h : (addressTransaction w d.addr reg d.wire).1 ≠ 0) :
    readReg c w d reg = (0, stoppedAfterAddressing c w d reg) := by
  have h' : (w.endTransmission (w.write reg (w.beginTransmission d.addr d.wire))).1 ≠ 0 := h
  simp [readReg, wireBeginTransmission, wireWrite, wireEndTransmission, h',
    stoppedAfterAddressing, addressTransaction]

/-- The outcome of `readReg` when the byte request does not report one byte:
0 is returned and nothing is read. -/
theorem readReg_of_short_read (c : Constants) (w : TwoWire σ) (d : MCP23017 σ)
    (reg : Nat) (h : (addressTransaction w d.addr reg d.wire).1 = 0)
    (hn : (byteRequest w d.addr reg d.wire).1 % 256 ≠ 1) :
    readReg c w d reg = (0, stoppedAfterRequest c w d reg) := by
  have h' : (w.endTransmission (w.write reg (w.beginTransmission d.addr d.wire))).1 = 0 := h
  have hn' : (w.requestFrom d.addr 1
      (w.endTransmission (w.write reg (w.beginTransmission d.addr d.wire))).2).1 % 256 ≠ 1 := hn
  simp [readReg, wireBeginTransmission, wireWrite, wireEndTransmission, wireRequestFrom, h',
    hn', stoppedAfterRequest, byteRequest, addressTransaction]

/-- The outcome of `readReg` when both steps succeed: the byte handed out by
`read`, converted to `uint8_t`. -/
theorem readReg_of_success (c : Constants) (w : TwoWire σ) (d : MCP23017 σ)
    (reg : Nat) (h : (addressTransaction w d.addr reg d.wire).1 = 0)
    (hn : (byteRequest w d.addr reg d.wire).1 % 256 = 1) :
    readReg c w d reg =
      (toUint8 (w.read (byteRequest w d.addr reg d.wire).2).1,
       { addr := d.addr, wire := (w.read (byteRequest w d.addr reg d.wire).2).2,
         error := c.OK,
         calls := d.calls ++ [WireCall.beginTransmission d.addr, WireCall.write reg,
           WireCall.endTransmission, WireCall.requestFrom d.addr 1, WireCall.read] }) := by
  have h' : (w.endTransmission (w.write reg (w.beginTransmission d.addr d.wire))).1 = 0 := h
  have hn' : (w.requestFrom d.addr 1
      (w.endTransmission (w.write reg (w.beginTransmission d.addr d.wire))).2).1 % 256 = 1 := hn
  simp [readReg, wireBeginTransmission, wireWrite, wireEndTransmission, wireRequestFrom,
    wireRead, h', hn', byteRequest, addressTransaction]

/-- The outcome of `writeReg`, by completion status of its transaction. -/
theorem writeReg_outcome (c : Constants) (w : TwoWire σ) (d : MCP23017 σ) (reg value : Nat) :
    writeReg c w d reg value =
      (decide ((writeTransaction w d.addr reg value d.wire).1 = 0),
       { addr := d.addr, wire := (writeTransaction w d.addr reg value d.wire).2,
         error := if (writeTransaction w d.addr reg value d.wire).1 = 0 then c.OK
                  else c.I2C_ERROR,
         calls := d.calls ++ [WireCall.beginTransmission d.addr, WireCall.write reg,
           WireCall.write value, WireCall.endTransmission] }) := by
  by_cases h : (w.endTransmission (w.write value (w.write reg
      (w.beginTransmission d.addr d.wire)))).1 = 0
  · simp [writeReg, wireBeginTransmission, wireWrite, wireEndTransmission, h,
      writeTransaction]
  · simp [writeReg, wireBeginTransmission, wireWrite, wireEndTransmission, h,
      writeTransaction]

/-- The port selection written with `pin > 7` picks register `ra` for pins
below 8 and `rb` otherwise. -/
theorem register_of_pin (pin ra rb : Nat) :
    (if pin > 7 then rb else ra) = (if pin < 8 then ra else rb) := by
  by_cases h : pin < 8
  · have h7 : ¬ pin > 7 := by omega
    simp [h, h7]
  · have h7 : pin > 7 := by omega
    simp [h, h7]

/-- For `writeReg` the return value tells whether the error field is clear. -/
theorem writeReg_true_iff_error_ok (c : Constants) (w : TwoWire σ) (d : MCP23017 σ)
    (reg value : Nat) (hi2c : c.I2C_ERROR ≠ c.OK) :
    (writeReg c w d reg value).1 = true ↔ (writeReg c w d reg value).2.error = c.OK := by
  rw [writeReg_outcome]
  by_cases h : (writeTransaction w d.addr reg value d.wire).1 = 0
  · simp [h]
  · simp [h, hi2c]

/-- For `isConnected` the return value tells whether the error field is clear. -/
theorem isConnected_true_iff_error_ok (c : Constants) (w : TwoWire σ) (d : MCP23017 σ)
    (hi2c : c.I2C_ERROR ≠ c.OK) :
    (isConnected c w d).1 = true ↔ (isConnected c w d).2.error = c.OK := by
  unfold isConnected
  by_cases h : (wireEndTransmission w (wireBeginTransmission w d d.addr)).1 = 0
  · simp [h]
  · simp [h, hi2c]

/-- The closing test `if (_error != MCP23017_OK) return false; return true;`
makes the return value agree with the error field. -/
theorem checked_once_agrees (ok : Int) (s : MCP23017 σ) :
    (if s.error ≠ ok then (false, s) else (true, s)).1 = true ↔
      (if s.error ≠ ok then (false, s) else (true, s)).2.error = ok := by
  by_cases h : s.error = ok <;> simp [h]

/-- The closing test of the getters with a single pin argument. -/
theorem checked_once_agrees3 (ok : Int) (s : MCP23017 σ) (b0 b1 : Bool) :
    (if s.error ≠ ok then (false, b0, s) else (true, b1, s)).1 = true ↔
      (if s.error ≠ ok then (false, b0, s) else (true, b1, s)).2.2.error = ok := by
  by_cases h : s.error = ok <;> simp [h]

/-- The closing test of the getters with a port argument. -/
theorem checked_once_agrees3' (ok : Int) (m : Nat) (s : MCP23017 σ) :
    (if s.error ≠ ok then (false, m, s) else (true, m, s)).1 = true ↔
      (if s.error ≠ ok then (false, m, s) else (true, m, s)).2.2.error = ok := by
  by_cases h : s.error = ok <;> simp [h]

/-- The two tests of a read-modify-write, one after the read and one after
the write, make the return value agree with the error field. -/
theorem checked_twice_agrees (ok : Int) (s s' : MCP23017 σ) :
    (if s.error ≠ ok then (false, s)
      else if s'.error ≠ ok then (false, s') else (true, s')).1 = true ↔
    (if s.error ≠ ok then (false, s)
      else if s'.error ≠ ok then (false, s') else (true, s')).2.error = ok := by
  by_cases h : s.error = ok <;> by_cases h' : s'.error = ok <;> simp [h, h']

/-- For `begin` the return value tells whether the error field is clear. -/
theorem begin_true_iff_error_ok (c : Constants) (w : TwoWire σ) (d : MCP23017 σ)
    (hi2c : c.I2C_ERROR ≠ c.OK) :
    (begin c w d).1 = true ↔ (begin c w d).2.error = c.OK := by
  simp only [begin]
  have h1 := isConnected_true_iff_error_ok c w (wireBegin w d) hi2c
  have h2 := writeReg_true_iff_error_ok c w (isConnected c w (wireBegin w d)).2
    MCP23017_IOCR 0b00100000 hi2c
  have h3 := writeReg_true_iff_error_ok c w
    (writeReg c w (isConnected c w (wireBegin w d)).2 MCP23017_IOCR 0b00100000).2
    MCP23017_PUR_A 0xFF hi2c
  have h4 := writeReg_true_iff_error_ok c w
    (writeReg c w
      (writeReg c w (isConnected c w (wireBegin w d)).2 MCP23017_IOCR 0b00100000).2
      MCP23017_PUR_A 0xFF).2
    MCP23017_PUR_B 0xFF hi2c
  cases ha : (isConnected c w (wireBegin w d)).1
  · rw [ha] at h1
    simpa using h1
  · cases hb : (writeReg c w (isConnected c w (wireBegin w d)).2 MCP23017_IOCR 0b00100000).1
    · rw [hb] at h2
      simpa using h2
    · cases he : (writeReg c w
        (writeReg c w (isConnected c w (wireBegin w d)).2 MCP23017_IOCR 0b00100000).2
        MCP23017_PUR_A 0xFF).1
      · rw [he] at h3
        simpa using h3
      · cases hf : (writeReg c w
          (writeReg c w
            (writeReg c w (isConnected c w (wireBegin w d)).2 MCP23017_IOCR 0b00100000).2
            MCP23017_PUR_A 0xFF).2
          MCP23017_PUR_B 0xFF).1
        · rw [hf] at h4
          simpa using h4
        · rw [hf] at h4
          simpa using h4

/-- For `pinMode` the return value tells whether the error field is clear. -/
theorem pinMode_true_iff_error_ok (c : Constants) (w : TwoWire σ) (d : MCP23017 σ)
    (pin mode : Nat) (hpinerr : c.PIN_ERROR ≠ c.OK) (hvalerr : c.VALUE_ERROR ≠ c.OK) :
    (pinMode c w d pin mode).1 = true ↔ (pinMode c w d pin mode).2.error = c.OK := by
  simp only [pinMode]
  by_cases hp : pin > 15
  · rw [if_pos hp]
    simp [hpinerr]
  · rw [if_neg hp]
    by_cases hm : mode ≠ c.INPUT ∧ mode ≠ c.INPUT_PULLUP ∧ mode ≠ c.OUTPUT
    · rw [if_pos hm]
      simp [hvalerr]
    rw [if_neg hm]
    exact checked_twice_agrees c.OK _ _

/-- For `digitalWrite` the return value tells whether the error field is clear. -/
theorem digitalWrite_true_iff_error_ok (c : Constants) (w : TwoWire σ) (d : MCP23017 σ)
    (pin value : Nat) (hpinerr : c.PIN_ERROR ≠ c.OK) :
    (digitalWrite c w d pin value).1 = true ↔ (digitalWrite c w d pin value).2.error = c.OK := by
  simp only [digitalWrite]
  by_cases hp : pin > 15
  · rw [if_pos hp]
    simp [hpinerr]
  · rw [if_neg hp]
    exact checked_twice_agrees c.OK _ _

/-- For `setPolarity` the return value tells whether the error field is clear. -/
theorem setPolarity_true_iff_error_ok (c : Constants) (w : TwoWire σ) (d : MCP23017 σ)
    (pin : Nat) (flag : Bool) (hpinerr : c.PIN_ERROR ≠ c.OK) :
    (setPolarity c w d pin flag).1 = true ↔ (setPolarity c w d pin flag).2.error = c.OK := by
  simp only [setPolarity]
  by_cases hp : pin > 15
  · rw [if_pos hp]
    simp [hpinerr]
  · rw [if_neg hp]
    exact checked_twice_agrees c.OK _ _

/-- For `getPolarity` the return value tells whether the error field is clear. -/
theorem getPolarity_true_iff_error_ok (c : Constants) (w : TwoWire σ) (d : MCP23017 σ)
    (pin : Nat) (flag : Bool) (hpinerr : c.PIN_ERROR ≠ c.OK) :
    (getPolarity c w d pin flag).1 = true ↔ (getPolarity c w d pin flag).2.2.error = c.OK := by
  simp only [getPolarity]
  by_cases hp : pin > 15
  · rw [if_pos hp]
    simp [hpinerr]
  · rw [if_neg hp]
    exact checked_once_agrees3 c.OK _ _ _

/-- For `setPullup` the return value tells whether the error field is clear. -/
theorem setPullup_true_iff_error_ok (c : Constants) (w : TwoWire σ) (d : MCP23017 σ)
    (pin : Nat) (flag : Bool) (hpinerr : c.PIN_ERROR ≠ c.OK) :
    (setPullup c w d pin flag).1 = true ↔ (setPullup c w d pin flag).2.error = c.OK := by
  simp only [setPullup]
  by_cases hp : pin > 15
  · rw [if_pos hp]
    simp [hpinerr]
  · rw [if_neg hp]
    exact checked_twice_agrees c.OK _ _

/-- For `getPullup` the return value tells whether the error field is clear. -/
theorem getPullup_true_iff_error_ok (c : Constants) (w : TwoWire σ) (d : MCP23017 σ)
    (pin : Nat) (flag : Bool) (hpinerr : c.PIN_ERROR ≠ c.OK) :
    (getPullup c w d pin flag).1 = true ↔ (getPullup c w d pin flag).2.2.error = c.OK := by
  simp only [getPullup]
  by_cases hp : pin > 15
  · rw [if_pos hp]
    simp [hpinerr]
  · rw [if_neg hp]
    exact checked_once_agrees3 c.OK _ _ _

/-- For `pinMode8` the return value tells whether the error field is clear. -/
theorem pinMode8_true_iff_error_ok (c : Constants) (w : TwoWire σ) (d : MCP23017 σ)
    (port value : Nat) (hporterr : c.PORT_ERROR ≠ c.OK) :
    (pinMode8 c w d port value).1 = true ↔ (pinMode8 c w d port value).2.error = c.OK := by
  simp only [pinMode8]
  by_cases hp : port > 1
  · rw [if_pos hp]
    simp [hporterr]
  · rw [if_neg hp]
    simp

/-- For `write8` the return value tells whether the error field is clear. -/
theorem write8_true_iff_error_ok (c : Constants) (w : TwoWire σ) (d : MCP23017 σ)
    (port value : Nat) (hporterr : c.PORT_ERROR ≠ c.OK) :
    (write8 c w d port value).1 = true ↔ (write8 c w d port value).2.error = c.OK := by
  simp only [write8]
  by_cases hp : port > 1
  · rw [if_pos hp]
    simp [hporterr]
  · rw [if_neg hp]
    simp

/-- For `setPolarity8` the return value tells whether the error field is clear. -/
theorem setPolarity8_true_iff_error_ok (c : Constants) (w : TwoWire σ) (d : MCP23017 σ)
    (port value : Nat) (hporterr : c.PORT_ERROR ≠ c.OK) :
    (setPolarity8 c w d port value).1 = true ↔ (setPolarity8 c w d port value).2.error = c.OK := by
  simp only [setPolarity8]
  by_cases hp : port > 1
  · rw [if_pos hp]
    simp [hporterr]
  · rw [if_neg hp]
    exact checked_once_agrees c.OK _

/-- For `getPolarity8` the return value tells whether the error field is clear. -/
theorem getPolarity8_true_iff_error_ok (c : Constants) (w : TwoWire σ) (d : MCP23017 σ)
    (port value : Nat) (hporterr : c.PORT_ERROR ≠ c.OK) :
    (getPolarity8 c w d port value).1 = true ↔ (getPolarity8 c w d port value).2.2.error = c.OK := by
  simp only [getPolarity8]
  by_cases hp : port > 1
  · rw [if_pos hp]
    simp [hporterr]
  · rw [if_neg hp]
    exact checked_once_agrees3' c.OK _ _

/-- For `setPullup8` the return value tells whether the error field is clear. -/
theorem setPullup8_true_iff_error_ok (c : Constants) (w : TwoWire σ) (d : MCP23017 σ)
    (port value : Nat) (hporterr : c.PORT_ERROR ≠ c.OK) :
    (setPullup8 c w d port value).1 = true ↔ (setPullup8 c w d port value).2.error = c.OK := by
  simp only [setPullup8]
  by_cases hp : port > 1
  · rw [if_pos hp]
    simp [hporterr]
  · rw [if_neg hp]
    exact checked_once_agrees c.OK _

/-- For `getPullup8` the return value tells whether the error field is clear. -/
theorem getPullup8_true_iff_error_ok (c : Constants) (w : TwoWire σ) (d : MCP23017 σ)
    (port value : Nat) (hporterr : c.PORT_ERROR ≠ c.OK) :
    (getPullup8 c w d port value).1 = true ↔ (getPullup8 c w d port value).2.2.error = c.OK := by
  simp only [getPullup8]
  by_cases hp : port > 1
  · rw [if_pos hp]
    simp [hporterr]
  · rw [if_neg hp]
    exact checked_once_agrees3' c.OK _ _

/-! ## Argument validation -/

/-- For every pin index above 15, every transport and every driver state,
each single pin operation leaves the error field equal to
`MCP23017_PIN_ERROR` and makes no call on the transport; the operations of
type `bool` return `false`, and `digitalRead` returns the sentinel
`MCP23017_INVALID_READ` as narrowed by its `uint8_t` return type. -/
theorem pin_above_15_rejected (c : Constants) (w : TwoWire σ) (d : MCP23017 σ)
    (p : Nat) (hp : 15 < p) (mode value : Nat) (flag : Bool) :
    ((pinMode c w d p mode).1 = false ∧
      RejectedWith d (pinMode c w d p mode).2 c.PIN_ERROR) ∧
    ((digitalWrite c w d p value).1 = false ∧
      RejectedWith d (digitalWrite c w d p value).2 c.PIN_ERROR) ∧
    ((digitalRead c w d p).1 = toUint8 c.INVALID_READ ∧
      (0 ≤ c.INVALID_READ → c.INVALID_READ < 256 →
        ((digitalRead c w d p).1 : Int) = c.INVALID_READ) ∧
      RejectedWith d (digitalRead c w d p).2 c.PIN_ERROR) ∧
    ((setPolarity c w d p flag).1 = false ∧
      RejectedWith d (setPolarity c w d p flag).2 c.PIN_ERROR) ∧
    ((getPolarity c w d p flag).1 = false ∧
      RejectedWith d (getPolarity c w d p flag).2.2 c.PIN_ERROR) ∧
    ((setPullup c w d p flag).1 = false ∧
      RejectedWith d (setPullup c w d p flag).2 c.PIN_ERROR) ∧
    ((getPullup c w d p flag).1 = false ∧
      RejectedWith d (getPullup c w d p flag).2.2 c.PIN_ERROR) := by
  have hfit : 0 ≤ c.INVALID_READ → c.INVALID_READ < 256 →
      ((toUint8 c.INVALID_READ : Nat) : Int) = c.INVALID_READ := by
    intro h0 h1
    unfold toUint8
    omega
  simp [pinMode, digitalWrite, digitalRead, setPolarity, getPolarity, setPullup,
    getPullup, RejectedWith, hp]
  exact hfit

/-- C1: for a pin index above 15 `digitalRead` does not return
`MCP23017_INVALID_READ`.  The sentinel is the one `read8`, of type `int`,
returns next to the byte values 0..255, so it lies outside 0..255; the return
type `uint8_t` of `digitalRead` narrows it, and the value that arrives differs
from the sentinel for every such choice of the constant, on every transport
and in every driver state.  The error field is `MCP23017_PIN_ERROR` and no
call is made on the transport, as the claim says; `read8` with the same
out-of-range argument returns the sentinel itself. -/
theorem digitalRead_narrows_invalid_read (c : Constants) (w : TwoWire σ) (d : MCP23017 σ)
    (p : Nat) (hp : 15 < p) (hsentinel : c.INVALID_READ < 0 ∨ 255 < c.INVALID_READ) :
    ((digitalRead c w d p).1 : Int) ≠ c.INVALID_READ ∧
    ((digitalRead c w d p).1 : Int) = c.INVALID_READ % 256 ∧
    RejectedWith d (digitalRead c w d p).2 c.PIN_ERROR ∧
    (read8 c w d p).1 = c.INVALID_READ := by
  have hp1 : 1 < p := by omega
  have hval : ((toUint8 c.INVALID_READ : Nat) : Int) = c.INVALID_READ % 256 := by
    unfold toUint8
    omega
  have hrun : digitalRead c w d p = (toUint8 c.INVALID_READ, { d with error := c.PIN_ERROR }) := by
    unfold digitalRead
    rw [if_pos hp]
  refine ⟨?_, ?_, ?_, ?_⟩
  · rw [hrun]
    show ((toUint8 c.INVALID_READ : Nat) : Int) ≠ c.INVALID_READ
    rw [hval]
    omega
  · rw [hrun]
    exact hval
  · rw [hrun]
    simp [RejectedWith]
  · simp [read8, hp1]

/-- C1 at pin 16 with the sentinel -100 on a register bank: `digitalRead(16)`
returns 156, which is not -100, while `read8(16)` returns -100. -/
theorem digitalRead_narrows_invalid_read_witness :
    15 < 16 ∧ (sampleConstants.INVALID_READ < 0 ∨ 255 < sampleConstants.INVALID_READ) ∧
    (digitalRead sampleConstants registerBank
        (new sampleConstants 0x27 (RegisterBank.filled 0xFF)) 16).1 = 156 ∧
    ((digitalRead sampleConstants registerBank
        (new sampleConstants 0x27 (RegisterBank.filled 0xFF)) 16).1 : Int)
      ≠ sampleConstants.INVALID_READ ∧
    (read8 sampleConstants registerBank
        (new sampleConstants 0x27 (RegisterBank.filled 0xFF)) 16).1 = -100 :=
  ⟨by decide, by decide, by decide,
   (digitalRead_narrows_invalid_read sampleConstants registerBank
      (new sampleConstants 0x27 (RegisterBank.filled 0xFF)) 16 (by decide) (by decide)).1,
   by decide⟩

/-- C2: for every port index above 1, every transport and every driver state,
each port wide operation returns failure (`false`, or
`MCP23017_INVALID_READ` for `read8`), leaves the error field equal to
`MCP23017_PORT_ERROR` and makes no call on the transport. -/
theorem port_above_1_rejected (c : Constants) (w : TwoWire σ) (d : MCP23017 σ)
    (port : Nat) (hport : 1 < port) (value mask : Nat) :
    ((pinMode8 c w d port value).1 = false ∧
      RejectedWith d (pinMode8 c w d port value).2 c.PORT_ERROR) ∧
    ((write8 c w d port value).1 = false ∧
      RejectedWith d (write8 c w d port value).2 c.PORT_ERROR) ∧
    ((read8 c w d port).1 = c.INVALID_READ ∧
      RejectedWith d (read8 c w d port).2 c.PORT_ERROR) ∧
    ((setPolarity8 c w d port mask).1 = false ∧
      RejectedWith d (setPolarity8 c w d port mask).2 c.PORT_ERROR) ∧
    ((getPolarity8 c w d port mask).1 = false ∧
      RejectedWith d (getPolarity8 c w d port mask).2.2 c.PORT_ERROR) ∧
    ((setPullup8 c w d port mask).1 = false ∧
      RejectedWith d (setPullup8 c w d port mask).2 c.PORT_ERROR) ∧
    ((getPullup8 c w d port mask).1 = false ∧
      RejectedWith d (getPullup8 c w d port mask).2.2 c.PORT_ERROR) := by
  simp [pinMode8, write8, read8, setPolarity8, getPolarity8, setPullup8,
    getPullup8, RejectedWith, hport]

/-- C2 at port 2 on a register bank: `read8` is rejected with the sentinel. -/
theorem port_above_1_rejected_witness :
    1 < 2 ∧
    (read8 sampleConstants registerBank
        (new sampleConstants 0x27 (RegisterBank.filled 0xFF)) 2).1
      = sampleConstants.INVALID_READ ∧
    RejectedWith (new sampleConstants 0x27 (RegisterBank.filled 0xFF))
      (write8 sampleConstants registerBank
        (new sampleConstants 0x27 (RegisterBank.filled 0xFF)) 2 0x0A).2
      sampleConstants.PORT_ERROR :=
  ⟨by decide,
   (port_above_1_rejected sampleConstants registerBank
      (new sampleConstants 0x27 (RegisterBank.filled 0xFF)) 2 (by decide) 0x0A 0).2.2.1.1,
   (port_above_1_rejected sampleConstants registerBank
      (new sampleConstants 0x27 (RegisterBank.filled 0xFF)) 2 (by decide) 0x0A 0).2.1.2⟩

/-- C3: `pinMode` accepts exactly the modes `INPUT`, `INPUT_PULLUP` and
`OUTPUT`.  For every pin below 16 on an acknowledging transport it returns
`true` when the mode is one of the three; for every other mode it returns
`false`, sets the error field to `MCP23017_VALUE_ERROR` and makes no call on
the transport, so the transport state (and with it the data direction
register) is unmodified. -/
theorem pinMode_accepts_exactly_three_modes (c : Constants) (w : TwoWire σ)
    (hack : Acknowledges w) (d : MCP23017 σ) (pin mode : Nat) (hpin : pin < 16) :
    ((mode = c.INPUT ∨ mode = c.INPUT_PULLUP ∨ mode = c.OUTPUT) →
      (pinMode c w d pin mode).1 = true) ∧
    (¬ (mode = c.INPUT ∨ mode = c.INPUT_PULLUP ∨ mode = c.OUTPUT) →
      (pinMode c w d pin mode).1 = false ∧
      RejectedWith d (pinMode c w d pin mode).2 c.VALUE_ERROR) := by
  have hp : ¬ pin > 15 := by omega
  constructor
  · intro hmode
    have hvalid : ¬ (mode ≠ c.INPUT ∧ mode ≠ c.INPUT_PULLUP ∧ mode ≠ c.OUTPUT) := by
      rintro ⟨h1, h2, h3⟩
      rcases hmode with h | h | h
      · exact h1 h
      · exact h2 h
      · exact h3 h
    unfold pinMode
    rw [if_neg hp, if_neg hvalid]
    simp [readReg_error_of_acknowledges c w hack,
      (writeReg_of_acknowledges c w hack _ _ _).2]
  · intro hmode
    have hinvalid : mode ≠ c.INPUT ∧ mode ≠ c.INPUT_PULLUP ∧ mode ≠ c.OUTPUT := by
      refine ⟨fun h => hmode (Or.inl h), fun h => hmode (Or.inr (Or.inl h)),
        fun h => hmode (Or.inr (Or.inr h))⟩
    have hrun : pinMode c w d pin mode = (false, { d with error := c.VALUE_ERROR }) := by
      unfold pinMode
      rw [if_neg hp, if_pos hinvalid]
    rw [hrun]
    simp [RejectedWith]

/-- C3 on a register bank: pin 5 accepts `OUTPUT` and rejects mode 7, leaving
the bank untouched. -/
theorem pinMode_accepts_exactly_three_modes_witness :
    Acknowledges registerBank ∧ 5 < 16 ∧
    (pinMode sampleConstants registerBank
      (new sampleConstants 0x27 (RegisterBank.filled 0xFF)) 5 sampleConstants.OUTPUT).1 = true ∧
    ((pinMode sampleConstants registerBank
      (new sampleConstants 0x27 (RegisterBank.filled 0xFF)) 5 7).1 = false ∧
     RejectedWith (new sampleConstants 0x27 (RegisterBank.filled 0xFF))
      (pinMode sampleConstants registerBank
        (new sampleConstants 0x27 (RegisterBank.filled 0xFF)) 5 7).2
      sampleConstants.VALUE_ERROR) :=
  ⟨acknowledges_registerBank, by decide,
   (pinMode_accepts_exactly_three_modes sampleConstants registerBank
      acknowledges_registerBank (new sampleConstants 0x27 (RegisterBank.filled 0xFF)) 5
      sampleConstants.OUTPUT (by decide)).1 (Or.inr (Or.inr rfl)),
   (pinMode_accepts_exactly_three_modes sampleConstants registerBank
      acknowledges_registerBank (new sampleConstants 0x27 (RegisterBank.filled 0xFF)) 5
      7 (by decide)).2 (by decide)⟩

/-! ## The error field -/

/-- C5: `lastError()` is read and clear.  For every driver state it returns
the error code held by the state and leaves the error field `MCP23017_OK`, so
that a second call right after returns `MCP23017_OK`; it makes no call on the
transport and changes nothing else. -/
theorem lastError_read_and_clear (c : Constants) (d : MCP23017 σ) :
    (lastError c d).1 = d.error ∧
    RejectedWith d (lastError c d).2 c.OK ∧
    (lastError c (lastError c d).2).1 = c.OK ∧
    RejectedWith d (lastError c (lastError c d).2).2 c.OK := by
  simp [lastError, RejectedWith]

/-! ## Data interface on a register bank -/

/-- C4: on a register bank, for every pin below 16 and every value,
`digitalWrite` returns `true` and changes only bit `pin mod 8` of the GPIO
register of the pin's port (0x12 for pins below 8, 0x13 otherwise): afterwards
that bit is set exactly when the value is not zero, the seven other bits of
the register are as before, and every other register is unchanged. -/
theorem digitalWrite_changes_one_bit (c : Constants) (d : MCP23017 RegisterBank)
    (pin value : Nat) (hpin : pin < 16) :
    (digitalWrite c registerBank d pin value).1 = true ∧
    ((digitalWrite c registerBank d pin value).2.wire.regs
        (if pin < 8 then 0x12 else 0x13)).testBit (pin % 8) = decide (value ≠ 0) ∧
    (∀ j, j < 8 → j ≠ pin % 8 →
      ((digitalWrite c registerBank d pin value).2.wire.regs
          (if pin < 8 then 0x12 else 0x13)).testBit j
        = (d.wire.regs (if pin < 8 then 0x12 else 0x13)).testBit j) ∧
    (∀ reg, reg ≠ (if pin < 8 then 0x12 else 0x13) →
      (digitalWrite c registerBank d pin value).2.wire.regs reg = d.wire.regs reg) := by
  have hp : ¬ pin > 15 := by omega
  by_cases h8 : pin < 8
  · have h7 : ¬ pin > 7 := by omega
    have hmod : pin % 8 = pin := Nat.mod_eq_of_lt h8
    unfold digitalWrite
    rw [if_neg hp]
    simp only [h7, if_false, h8, if_true, readReg_registerBank, writeReg_registerBank,
      hmod, MCP23017_GPIOA]
    refine ⟨by simp, ?_, ?_, ?_⟩
    · by_cases hv : value = 0
      · simp [hv, RegisterBank.store, Nat.mod_eq_of_lt (clearBits_lt _ _),
          testBit_clearBits _ _ _ h8 h8]
      · simp [hv, RegisterBank.store, Nat.mod_eq_of_lt (setBits_lt _ _),
          testBit_setBits _ _ _ h8 h8]
    · intro j hj hne
      have hne2 : ¬ pin = j := fun h => hne h.symm
      by_cases hv : value = 0
      · simp [hv, RegisterBank.store, Nat.mod_eq_of_lt (clearBits_lt _ _),
          testBit_clearBits _ _ _ h8 hj, hne2, testBit_mod_256 _ _ hj]
      · simp [hv, RegisterBank.store, Nat.mod_eq_of_lt (setBits_lt _ _),
          testBit_setBits _ _ _ h8 hj, hne2, testBit_mod_256 _ _ hj]
    · intro reg hreg
      simp [RegisterBank.store, hreg]
  · have h7 : pin > 7 := by omega
    have hk : pin - 8 < 8 := by omega
    have hmod : pin % 8 = pin - 8 := by omega
    unfold digitalWrite
    rw [if_neg hp]
    simp only [h7, if_true, h8, if_false, readReg_registerBank, writeReg_registerBank,
      hmod, MCP23017_GPIOB]
    refine ⟨by simp, ?_, ?_, ?_⟩
    · by_cases hv : value = 0
      · simp [hv, RegisterBank.store, Nat.mod_eq_of_lt (clearBits_lt _ _),
          testBit_clearBits _ _ _ hk hk]
      · simp [hv, RegisterBank.store, Nat.mod_eq_of_lt (setBits_lt _ _),
          testBit_setBits _ _ _ hk hk]
    · intro j hj hne
      have hne2 : ¬ pin - 8 = j := fun h => hne h.symm
      by_cases hv : value = 0
      · simp [hv, RegisterBank.store, Nat.mod_eq_of_lt (clearBits_lt _ _),
          testBit_clearBits _ _ _ hk hj, hne2, testBit_mod_256 _ _ hj]
      · simp [hv, RegisterBank.store, Nat.mod_eq_of_lt (setBits_lt _ _),
          testBit_setBits _ _ _ hk hj, hne2, testBit_mod_256 _ _ hj]
    · intro reg hreg
      simp [RegisterBank.store, hreg]

/-- C4 for pin 10 written `HIGH` then `LOW` on a bank whose registers hold
0xF0: the second write clears bit 2 of GPIOB (0x13) and keeps the rest; the
register reads 0xF4 after the first write and 0xF0 after the second. -/
theorem digitalWrite_changes_one_bit_witness :
    10 < 16 ∧
    ((digitalWrite sampleConstants registerBank
        (new sampleConstants 0x27 (RegisterBank.filled 0xF0)) 10 HIGH).2.wire.regs 0x13 = 0xF4) ∧
    ((digitalWrite sampleConstants registerBank
        (digitalWrite sampleConstants registerBank
          (new sampleConstants 0x27 (RegisterBank.filled 0xF0)) 10 HIGH).2 10 LOW).2.wire.regs
        0x13 = 0xF0) ∧
    (∀ j, j < 8 → j ≠ 2 →
      ((digitalWrite sampleConstants registerBank
        (digitalWrite sampleConstants registerBank
          (new sampleConstants 0x27 (RegisterBank.filled 0xF0)) 10 HIGH).2 10 LOW).2.wire.regs
          0x13).testBit j
        = ((digitalWrite sampleConstants registerBank
          (new sampleConstants 0x27 (RegisterBank.filled 0xF0)) 10 HIGH).2.wire.regs
            0x13).testBit j) :=
  ⟨by decide, by decide, by decide,
   (digitalWrite_changes_one_bit sampleConstants
      (digitalWrite sampleConstants registerBank
        (new sampleConstants 0x27 (RegisterBank.filled 0xF0)) 10 HIGH).2 10 LOW
      (by decide)).2.2.1⟩

/-- C6: round trip of the port wide data interface.  On a register bank, for
port 0 or 1 and every byte `v`, `write8(port, v)` returns `true`, a `read8(port)`
right after returns `v` with the error field `MCP23017_OK`, and no register
other than the GPIO register of that port (0x12 for port 0, 0x13 for port 1)
has changed; in particular the GPIO register of the other port is as before. -/
theorem write8_read8_round_trip (c : Constants) (d : MCP23017 RegisterBank)
    (port v : Nat) (hport : port < 2) (hv : v < 256) :
    (write8 c registerBank d port v).1 = true ∧
    (read8 c registerBank (write8 c registerBank d port v).2 port).1 = (v : Int) ∧
    (read8 c registerBank (write8 c registerBank d port v).2 port).2.error = c.OK ∧
    (read8 c registerBank (write8 c registerBank d port v).2 port).2.wire.regs
        (if port = 0 then 0x13 else 0x12)
      = d.wire.regs (if port = 0 then 0x13 else 0x12) ∧
    (∀ reg, reg ≠ (if port = 0 then 0x12 else 0x13) →
      (read8 c registerBank (write8 c registerBank d port v).2 port).2.wire.regs reg
        = d.wire.regs reg) := by
  have hp : ¬ port > 1 := by omega
  have hvm : v % 256 = v := Nat.mod_eq_of_lt hv
  have hcases : port = 0 ∨ port = 1 := by omega
  rcases hcases with h0 | h1
  · subst h0
    simp [write8, read8, readReg_registerBank, writeReg_registerBank, RegisterBank.store,
      MCP23017_GPIOA, MCP23017_GPIOB, hvm]
    intro reg hreg
    simp [hreg]
  · subst h1
    simp [write8, read8, readReg_registerBank, writeReg_registerBank, RegisterBank.store,
      MCP23017_GPIOA, MCP23017_GPIOB, hvm]
    intro reg hreg
    simp [hreg]

/-- C6 for `pinMode8(0, 0x0F); write8(0, 0x0A); read8(0)`, which yields 0x0A. -/
theorem write8_read8_round_trip_witness :
    0 < 2 ∧ 0x0A < 256 ∧
    (read8 sampleConstants registerBank
      (write8 sampleConstants registerBank
        (pinMode8 sampleConstants registerBank
          (new sampleConstants 0x27 (RegisterBank.filled 0)) 0 0x0F).2 0 0x0A).2 0).1
      = ((0x0A : Nat) : Int) :=
  ⟨by decide, by decide,
   (write8_read8_round_trip sampleConstants
      (pinMode8 sampleConstants registerBank
        (new sampleConstants 0x27 (RegisterBank.filled 0)) 0 0x0F).2 0 0x0A
      (by decide) (by decide)).2.1⟩

/-- C7: on a register bank, for every pin below 16, `digitalRead` returns
`HIGH` if bit `pin mod 8` of the GPIO register of the pin's port (0x12 for
pins below 8, 0x13 otherwise) is set and `LOW` otherwise, leaves the error
field `MCP23017_OK` and modifies no register. -/
theorem digitalRead_returns_gpio_bit (c : Constants) (d : MCP23017 RegisterBank)
    (pin : Nat) (hpin : pin < 16) :
    (digitalRead c registerBank d pin).1 =
      (if (d.wire.regs (if pin < 8 then 0x12 else 0x13)).testBit (pin % 8) = true
        then HIGH else LOW) ∧
    (digitalRead c registerBank d pin).2.error = c.OK ∧
    (digitalRead c registerBank d pin).2.wire.regs = d.wire.regs := by
  have hp : ¬ pin > 15 := by omega
  by_cases h8 : pin < 8
  · have h7 : ¬ pin > 7 := by omega
    have hmod : pin % 8 = pin := Nat.mod_eq_of_lt h8
    unfold digitalRead
    rw [if_neg hp]
    simp only [h7, if_false, h8, if_true, readReg_registerBank, hmod, MCP23017_GPIOA,
      ne_eq, not_true_eq_false]
    have hbit := and_pinMask_ne_zero (d.wire.regs (18 % 256) % 256) pin h8
    rw [testBit_mod_256 _ _ h8] at hbit
    by_cases hb : (d.wire.regs 18).testBit pin = true
    · have hnz := hbit.2 hb
      simp [hb, hnz]
    · have hz : ¬ (d.wire.regs (18 % 256) % 256 &&& pinMask pin ≠ 0) := fun h => hb (hbit.1 h)
      simp only [ne_eq, not_not] at hz
      simp [hb, hz]
  · have h7 : pin > 7 := by omega
    have hk : pin - 8 < 8 := by omega
    have hmod : pin % 8 = pin - 8 := by omega
    unfold digitalRead
    rw [if_neg hp]
    simp only [h7, if_true, h8, if_false, readReg_registerBank, hmod, MCP23017_GPIOB,
      ne_eq, not_true_eq_false]
    have hbit := and_pinMask_ne_zero (d.wire.regs (19 % 256) % 256) (pin - 8) hk
    rw [testBit_mod_256 _ _ hk] at hbit
    by_cases hb : (d.wire.regs 19).testBit (pin - 8) = true
    · have hnz := hbit.2 hb
      simp [hb, hnz]
    · have hz : ¬ (d.wire.regs (19 % 256) % 256 &&& pinMask (pin - 8) ≠ 0) :=
        fun h => hb (hbit.1 h)
      simp only [ne_eq, not_not] at hz
      simp [hb, hz]

/-- C7 for pin 11 after `begin`, `pinMode8(0, 0x0F)` and `write8(0, 0x0A)` on a
bank that held zeros: bit 3 of GPIOB is clear and `digitalRead(11)` is `LOW`. -/
theorem digitalRead_returns_gpio_bit_witness :
    11 < 16 ∧
    ((write8 sampleConstants registerBank
        (pinMode8 sampleConstants registerBank
          (begin sampleConstants registerBank
            (new sampleConstants 0x27 (RegisterBank.filled 0))).2 0 0x0F).2 0 0x0A).2.wire.regs
        0x13).testBit 3 = false ∧
    (digitalRead sampleConstants registerBank
      (write8 sampleConstants registerBank
        (pinMode8 sampleConstants registerBank
          (begin sampleConstants registerBank
            (new sampleConstants 0x27 (RegisterBank.filled 0))).2 0 0x0F).2 0 0x0A).2 11).1
      = LOW :=
  ⟨by decide, by decide,
   (digitalRead_returns_gpio_bit sampleConstants
      (write8 sampleConstants registerBank
        (pinMode8 sampleConstants registerBank
          (begin sampleConstants registerBank
            (new sampleConstants 0x27 (RegisterBank.filled 0))).2 0 0x0F).2 0 0x0A).2 11
      (by decide)).1⟩

/-! ## Initialisation -/

/-- C8: `begin()` fails fast.  Let `t1` be the probe of the device address and
`t2`, `t3`, `t4` the transactions writing 0x20 to IOCR (0x0A), 0xFF to the pull
up register A (0x0C) and 0xFF to the pull up register B (0x0D), each run on the
transport state left by the one before.  If the probe is not acknowledged,
`begin()` returns `false` with the error field `MCP23017_I2C_ERROR` after the
calls `begin`, `beginTransmission`, `endTransmission` only: no register write
is attempted.  If a later step is the first to fail, `begin()` returns `false`
with the error field `MCP23017_I2C_ERROR` and the log ends with the failed
transaction: none of the later register writes is issued. -/
theorem begin_fails_fast (c : Constants) (w : TwoWire σ) (d : MCP23017 σ) :
    let t1 := probeTransaction w d.addr (w.begin d.wire)
    let t2 := writeTransaction w d.addr 0x0A 0x20 t1.2
    let t3 := writeTransaction w d.addr 0x0C 0xFF t2.2
    let t4 := writeTransaction w d.addr 0x0D 0xFF t3.2
    (t1.1 ≠ 0 →
      begin c w d = (false,
        { addr := d.addr, wire := t1.2, error := c.I2C_ERROR,
          calls := d.calls ++ [WireCall.begin,
            WireCall.beginTransmission d.addr, WireCall.endTransmission] })) ∧
    (t1.1 = 0 → t2.1 ≠ 0 →
      begin c w d = (false,
        { addr := d.addr, wire := t2.2, error := c.I2C_ERROR,
          calls := d.calls ++ [WireCall.begin,
            WireCall.beginTransmission d.addr, WireCall.endTransmission,
            WireCall.beginTransmission d.addr, WireCall.write 0x0A, WireCall.write 0x20,
            WireCall.endTransmission] })) ∧
    (t1.1 = 0 → t2.1 = 0 → t3.1 ≠ 0 →
      begin c w d = (false,
        { addr := d.addr, wire := t3.2, error := c.I2C_ERROR,
          calls := d.calls ++ [WireCall.begin,
            WireCall.beginTransmission d.addr, WireCall.endTransmission,
            WireCall.beginTransmission d.addr, WireCall.write 0x0A, WireCall.write 0x20,
            WireCall.endTransmission,
            WireCall.beginTransmission d.addr, WireCall.write 0x0C, WireCall.write 0xFF,
            WireCall.endTransmission] })) ∧
    (t1.1 = 0 → t2.1 = 0 → t3.1 = 0 → t4.1 ≠ 0 →
      begin c w d = (false,
        { addr := d.addr, wire := t4.2, error := c.I2C_ERROR,
          calls := d.calls ++ [WireCall.begin,
            WireCall.beginTransmission d.addr, WireCall.endTransmission,
            WireCall.beginTransmission d.addr, WireCall.write 0x0A, WireCall.write 0x20,
            WireCall.endTransmission,
            WireCall.beginTransmission d.addr, WireCall.write 0x0C, WireCall.write 0xFF,
            WireCall.endTransmission,
            WireCall.beginTransmission d.addr, WireCall.write 0x0D, WireCall.write 0xFF,
            WireCall.endTransmission] })) := by
  intro t1 t2 t3 t4
  refine ⟨?_, ?_, ?_, ?_⟩
  · intro h1
    have h1' : (w.endTransmission (w.beginTransmission d.addr (w.begin d.wire))).1 ≠ 0 := h1
    simp [begin, isConnected, wireBegin, wireBeginTransmission, wireEndTransmission, h1', t1,
      probeTransaction]
  · intro h1 h2
    have h1' : (w.endTransmission (w.beginTransmission d.addr (w.begin d.wire))).1 = 0 := h1
    have h2' : (w.endTransmission (w.write 0x20 (w.write 0x0A (w.beginTransmission d.addr
        (w.endTransmission (w.beginTransmission d.addr (w.begin d.wire))).2)))).1 ≠ 0 := h2
    simp [begin, isConnected, writeReg, wireBegin, wireBeginTransmission, wireWrite,
      wireEndTransmission, h1', h2', t1, t2, probeTransaction, writeTransaction, MCP23017_IOCR]
  · intro h1 h2 h3
    have h1' : (w.endTransmission (w.beginTransmission d.addr (w.begin d.wire))).1 = 0 := h1
    have h2' : (w.endTransmission (w.write 0x20 (w.write 0x0A (w.beginTransmission d.addr
        (w.endTransmission (w.beginTransmission d.addr (w.begin d.wire))).2)))).1 = 0 := h2
    have h3' : (w.endTransmission (w.write 0xFF (w.write 0x0C (w.beginTransmission d.addr
        (w.endTransmission (w.write 0x20 (w.write 0x0A (w.beginTransmission d.addr
        (w.endTransmission (w.beginTransmission d.addr (w.begin d.wire))).2)))).2)))).1 ≠ 0 := h3
    simp [begin, isConnected, writeReg, wireBegin, wireBeginTransmission, wireWrite,
      wireEndTransmission, h1', h2', h3', t1, t2, t3, probeTransaction, writeTransaction,
      MCP23017_IOCR, MCP23017_PUR_A]
  · intro h1 h2 h3 h4
    have h1' : (w.endTransmission (w.beginTransmission d.addr (w.begin d.wire))).1 = 0 := h1
    have h2' : (w.endTransmission (w.write 0x20 (w.write 0x0A (w.beginTransmission d.addr
        (w.endTransmission (w.beginTransmission d.addr (w.begin d.wire))).2)))).1 = 0 := h2
    have h3' : (w.endTransmission (w.write 0xFF (w.write 0x0C (w.beginTransmission d.addr
        (w.endTransmission (w.write 0x20 (w.write 0x0A (w.beginTransmission d.addr
        (w.endTransmission (w.beginTransmission d.addr (w.begin d.wire))).2)))).2)))).1 = 0 := h3
    have h4' : (w.endTransmission (w.write 0xFF (w.write 0x0D (w.beginTransmission d.addr
        (w.endTransmission (w.write 0xFF (w.write 0x0C (w.beginTransmission d.addr
        (w.endTransmission (w.write 0x20 (w.write 0x0A (w.beginTransmission d.addr
        (w.endTransmission (w.beginTransmission d.addr (w.begin d.wire))).2)))).2)))).2)))).1
        ≠ 0 := h4
    simp [begin, isConnected, writeReg, wireBegin, wireBeginTransmission, wireWrite,
      wireEndTransmission, h1', h2', h3', h4', t1, t2, t3, t4, probeTransaction,
      writeTransaction, MCP23017_IOCR, MCP23017_PUR_A, MCP23017_PUR_B]

/-- C8 on scripted transports: with the probe answered by status 2, `begin()`
fails after three calls; with the pull up write to register A answered by
status 4, it fails after that write and never addresses register B. -/
theorem begin_fails_fast_witness :
    begin sampleConstants scripted
        (new sampleConstants 0x27 { statuses := [2], count := 1, byte := 0 })
      = (false,
        { addr := 0x27, wire := { statuses := [], count := 1, byte := 0 },
          error := sampleConstants.I2C_ERROR,
          calls := [WireCall.begin, WireCall.beginTransmission 0x27,
            WireCall.endTransmission] }) ∧
    begin sampleConstants scripted
        (new sampleConstants 0x27 { statuses := [0, 0, 4], count := 1, byte := 0 })
      = (false,
        { addr := 0x27, wire := { statuses := [], count := 1, byte := 0 },
          error := sampleConstants.I2C_ERROR,
          calls := [WireCall.begin,
            WireCall.beginTransmission 0x27, WireCall.endTransmission,
            WireCall.beginTransmission 0x27, WireCall.write 0x0A, WireCall.write 0x20,
            WireCall.endTransmission,
            WireCall.beginTransmission 0x27, WireCall.write 0x0C, WireCall.write 0xFF,
            WireCall.endTransmission] }) :=
  ⟨(begin_fails_fast sampleConstants scripted
      (new sampleConstants 0x27 { statuses := [2], count := 1, byte := 0 })).1 (by decide),
   (begin_fails_fast sampleConstants scripted
      (new sampleConstants 0x27 { statuses := [0, 0, 4], count := 1, byte := 0 })).2.2.1
      (by decide) (by decide) (by decide)⟩

/-- C9: `begin()` does not force the pins into input mode.  On a register
bank whose data direction register A was set to 0x00 by `pinMode8(0, 0x00)`,
`begin()` returns `true` and the data direction register A (0x00) still holds
0x00, not 0xFF: the pins of port A are outputs after the call. -/
theorem begin_does_not_force_input_mode :
    (begin sampleConstants registerBank
      (pinMode8 sampleConstants registerBank
        (new sampleConstants 0x27 (RegisterBank.filled 0xFF)) 0 0x00).2).1 = true ∧
    (begin sampleConstants registerBank
      (pinMode8 sampleConstants registerBank
        (new sampleConstants 0x27 (RegisterBank.filled 0xFF)) 0 0x00).2).2.wire.regs 0x00
      = 0x00 ∧
    (begin sampleConstants registerBank
      (pinMode8 sampleConstants registerBank
        (new sampleConstants 0x27 (RegisterBank.filled 0xFF)) 0 0x00).2).2.wire.regs 0x00
      ≠ 0xFF := by
  decide

/-- The register writes of `begin()` on a register bank: it returns `true`
with the error field `MCP23017_OK`; afterwards the IO control register (0x0A)
holds 0b00100000 and both pull up registers (0x0C, 0x0D) hold 0xFF, and every
other register, the data direction registers (0x00, 0x01) among them, holds
what it held before. -/
theorem begin_on_register_bank (c : Constants) (d : MCP23017 RegisterBank) :
    (begin c registerBank d).1 = true ∧
    (begin c registerBank d).2.error = c.OK ∧
    (begin c registerBank d).2.wire.regs 0x0A = 0b00100000 ∧
    (begin c registerBank d).2.wire.regs 0x0C = 0xFF ∧
    (begin c registerBank d).2.wire.regs 0x0D = 0xFF ∧
    (begin c registerBank d).2.wire.regs 0x00 = d.wire.regs 0x00 ∧
    (begin c registerBank d).2.wire.regs 0x01 = d.wire.regs 0x01 ∧
    (∀ reg, reg ≠ 0x0A → reg ≠ 0x0C → reg ≠ 0x0D →
      (begin c registerBank d).2.wire.regs reg = d.wire.regs reg) := by
  have hconn : isConnected c registerBank (wireBegin registerBank d) =
      (true,
       { addr := d.addr,
         wire := { regs := d.wire.regs, txbuf := [], pointer := d.wire.pointer,
                   rxbuf := d.wire.rxbuf },
         error := c.OK,
         calls := d.calls ++ [WireCall.begin, WireCall.beginTransmission d.addr,
           WireCall.endTransmission] }) := by
    simp [isConnected, wireBegin, wireBeginTransmission, wireEndTransmission, registerBank]
  unfold begin
  simp only [hconn, writeReg_registerBank]
  simp [RegisterBank.store, MCP23017_IOCR, MCP23017_PUR_A, MCP23017_PUR_B]
  intro reg h1 h2 h3
  simp [h1, h2, h3]

/-! ## Transport failures in the 8 pins interface -/

/-- C10 fails for `write8` and `pinMode8`: on a transport that answers the
register write with completion status 2, `write8(0, 0x0A)` and
`pinMode8(0, 0x0F)` return `true` and leave the error field `MCP23017_OK`,
whereas `setPolarity8(0, 0x0F)` on the same transport returns `false` and
leaves `MCP23017_I2C_ERROR`. -/
theorem write8_pinMode8_hide_transport_failure :
    (write8 sampleConstants scripted
      (new sampleConstants 0x27 { statuses := [2], count := 1, byte := 0 }) 0 0x0A).1 = true ∧
    (write8 sampleConstants scripted
      (new sampleConstants 0x27 { statuses := [2], count := 1, byte := 0 }) 0 0x0A).2.error
      = sampleConstants.OK ∧
    (pinMode8 sampleConstants scripted
      (new sampleConstants 0x27 { statuses := [2], count := 1, byte := 0 }) 0 0x0F).1 = true ∧
    (pinMode8 sampleConstants scripted
      (new sampleConstants 0x27 { statuses := [2], count := 1, byte := 0 }) 0 0x0F).2.error
      = sampleConstants.OK ∧
    (writeReg sampleConstants scripted
      (new sampleConstants 0x27 { statuses := [2], count := 1, byte := 0 })
      MCP23017_GPIOA 0x0A).1 = false ∧
    (setPolarity8 sampleConstants scripted
      (new sampleConstants 0x27 { statuses := [2], count := 1, byte := 0 }) 0 0x0F).1 = false ∧
    (setPolarity8 sampleConstants scripted
      (new sampleConstants 0x27 { statuses := [2], count := 1, byte := 0 }) 0 0x0F).2.error
      = sampleConstants.I2C_ERROR := by
  decide

/-! ## Pin configuration on a register bank -/

/-- C11: on a register bank, for every pin below 16 (the mode constants being
distinct: `OUTPUT` differs from `INPUT` and from `INPUT_PULLUP`),
`pinMode(pin, INPUT)` and `pinMode(pin, INPUT_PULLUP)` have the same effect:
they set bit `pin mod 8` of the data direction register of the pin's port
(0x00 for pins below 8, 0x01 otherwise); `pinMode(pin, OUTPUT)` clears that
bit.  In all three cases the call returns `true`, the seven other bits of
that register are as before and every other register, the pull up registers
included, is unchanged. -/
theorem pinMode_updates_direction_bit (c : Constants) (d : MCP23017 RegisterBank)
    (pin : Nat) (hpin : pin < 16)
    (hout1 : c.OUTPUT ≠ c.INPUT) (hout2 : c.OUTPUT ≠ c.INPUT_PULLUP) :
    pinMode c registerBank d pin c.INPUT = pinMode c registerBank d pin c.INPUT_PULLUP ∧
    ((pinMode c registerBank d pin c.INPUT).2.wire.regs
        (if pin < 8 then 0x00 else 0x01)).testBit (pin % 8) = true ∧
    ((pinMode c registerBank d pin c.OUTPUT).2.wire.regs
        (if pin < 8 then 0x00 else 0x01)).testBit (pin % 8) = false ∧
    (∀ mode, mode = c.INPUT ∨ mode = c.INPUT_PULLUP ∨ mode = c.OUTPUT →
      (pinMode c registerBank d pin mode).1 = true ∧
      (∀ j, j < 8 → j ≠ pin % 8 →
        ((pinMode c registerBank d pin mode).2.wire.regs
            (if pin < 8 then 0x00 else 0x01)).testBit j
          = (d.wire.regs (if pin < 8 then 0x00 else 0x01)).testBit j) ∧
      (∀ reg, reg ≠ (if pin < 8 then 0x00 else 0x01) →
        (pinMode c registerBank d pin mode).2.wire.regs reg = d.wire.regs reg) ∧
      (pinMode c registerBank d pin mode).2.wire.regs 0x0C = d.wire.regs 0x0C ∧
      (pinMode c registerBank d pin mode).2.wire.regs 0x0D = d.wire.regs 0x0D) := by
  have hk : pin % 8 < 8 := Nat.mod_lt _ (by decide)
  have hp : ¬ pin > 15 := by omega
  refine ⟨?_, ?_, ?_, ?_⟩
  · unfold pinMode
    simp [hp]
  · rw [(pinMode_registerBank c d pin c.INPUT hpin (Or.inl rfl)).2]
    have h := (store_bit_update d.wire.regs (if pin < 8 then 0x00 else 0x01) (pin % 8)
      (decide (c.INPUT = c.INPUT ∨ c.INPUT = c.INPUT_PULLUP)) hk).1
    rw [h]
    simp
  · rw [(pinMode_registerBank c d pin c.OUTPUT hpin (Or.inr (Or.inr rfl))).2]
    have h := (store_bit_update d.wire.regs (if pin < 8 then 0x00 else 0x01) (pin % 8)
      (decide (c.OUTPUT = c.INPUT ∨ c.OUTPUT = c.INPUT_PULLUP)) hk).1
    rw [h]
    simp [hout1, hout2]
  · intro mode hmode
    have hrun := pinMode_registerBank c d pin mode hpin hmode
    have hupd := store_bit_update d.wire.regs (if pin < 8 then 0x00 else 0x01) (pin % 8)
      (decide (mode = c.INPUT ∨ mode = c.INPUT_PULLUP)) hk
    refine ⟨hrun.1, ?_, ?_, ?_, ?_⟩
    · intro j hj hne
      rw [hrun.2]
      exact hupd.2.1 j hj hne
    · intro reg hreg
      rw [hrun.2]
      exact hupd.2.2 reg hreg
    · rw [hrun.2]
      exact hupd.2.2 0x0C (by split <;> decide)
    · rw [hrun.2]
      exact hupd.2.2 0x0D (by split <;> decide)

/-- C11 for pin 9 on a bank whose registers hold 0xF0, with the sample mode
constants: `INPUT` and `INPUT_PULLUP` leave 0xF2 in register 0x01, `OUTPUT`
leaves 0xF0, and register 0x0D still holds 0xF0. -/
theorem pinMode_updates_direction_bit_witness :
    9 < 16 ∧ sampleConstants.OUTPUT ≠ sampleConstants.INPUT ∧
    sampleConstants.OUTPUT ≠ sampleConstants.INPUT_PULLUP ∧
    pinMode sampleConstants registerBank
        (new sampleConstants 0x27 (RegisterBank.filled 0xF0)) 9 sampleConstants.INPUT
      = pinMode sampleConstants registerBank
        (new sampleConstants 0x27 (RegisterBank.filled 0xF0)) 9 sampleConstants.INPUT_PULLUP ∧
    (pinMode sampleConstants registerBank
        (new sampleConstants 0x27 (RegisterBank.filled 0xF0)) 9
        sampleConstants.INPUT).2.wire.regs 0x01 = 0xF2 ∧
    (pinMode sampleConstants registerBank
        (new sampleConstants 0x27 (RegisterBank.filled 0xF0)) 9
        sampleConstants.OUTPUT).2.wire.regs 0x01 = 0xF0 ∧
    (pinMode sampleConstants registerBank
        (new sampleConstants 0x27 (RegisterBank.filled 0xF0)) 9
        sampleConstants.OUTPUT).2.wire.regs 0x0D = 0xF0 :=
  ⟨by decide, by decide, by decide,
   (pinMode_updates_direction_bit sampleConstants
      (new sampleConstants 0x27 (RegisterBank.filled 0xF0)) 9 (by decide) (by decide)
      (by decide)).1,
   by decide, by decide, by decide⟩

/-- C12: set/get round trip of the per pin polarity and pull up settings.
On a register bank, for every pin below 16 and every boolean `b`,
`setPolarity(pin, b)` returns `true` and a following `getPolarity(pin, r)`
returns `true` with `r = b`, while `getPolarity` of every other pin yields
what it yielded before the set; every register other than the polarity
register of the pin's port (0x02 for pins below 8, 0x03 otherwise) is
unchanged.  The same holds for `setPullup`/`getPullup` with the pull up
registers 0x0C and 0x0D. -/
theorem polarity_pullup_set_get_round_trip (c : Constants) (d : MCP23017 RegisterBank)
    (pin : Nat) (b r0 : Bool) (hpin : pin < 16) :
    (((setPolarity c registerBank d pin b).1 = true ∧
      (getPolarity c registerBank (setPolarity c registerBank d pin b).2 pin r0).1 = true ∧
      (getPolarity c registerBank (setPolarity c registerBank d pin b).2 pin r0).2.1 = b) ∧
     (∀ q, q < 16 → q ≠ pin →
      (getPolarity c registerBank (setPolarity c registerBank d pin b).2 q r0).2.1
        = (getPolarity c registerBank d q r0).2.1) ∧
     (∀ reg, reg ≠ (if pin < 8 then 0x02 else 0x03) →
      (getPolarity c registerBank (setPolarity c registerBank d pin b).2 pin r0).2.2.wire.regs reg
        = d.wire.regs reg)) ∧
    (((setPullup c registerBank d pin b).1 = true ∧
      (getPullup c registerBank (setPullup c registerBank d pin b).2 pin r0).1 = true ∧
      (getPullup c registerBank (setPullup c registerBank d pin b).2 pin r0).2.1 = b) ∧
     (∀ q, q < 16 → q ≠ pin →
      (getPullup c registerBank (setPullup c registerBank d pin b).2 q r0).2.1
        = (getPullup c registerBank d q r0).2.1) ∧
     (∀ reg, reg ≠ (if pin < 8 then 0x0C else 0x0D) →
      (getPullup c registerBank (setPullup c registerBank d pin b).2 pin r0).2.2.wire.regs reg
        = d.wire.regs reg)) := by
  have hk : pin % 8 < 8 := Nat.mod_lt _ (by decide)
  refine ⟨?_, ?_⟩
  · have hset := setPolarity_registerBank c d pin b hpin
    have hupd := store_bit_update d.wire.regs (if pin < 8 then 0x02 else 0x03) (pin % 8) b hk
    refine ⟨⟨hset.1, (getPolarity_registerBank c _ pin r0 hpin).1, ?_⟩, ?_, ?_⟩
    · rw [(getPolarity_registerBank c _ pin r0 hpin).2.1, hset.2]
      exact hupd.1
    · intro q hq hne
      rw [(getPolarity_registerBank c _ q r0 hq).2.1, (getPolarity_registerBank c d q r0 hq).2.1,
        hset.2]
      exact store_bit_update_other_pin d.wire.regs 0x02 0x03 pin q b (by decide) hpin hq hne
    · intro reg hreg
      rw [(getPolarity_registerBank c _ pin r0 hpin).2.2, hset.2]
      exact hupd.2.2 reg hreg
  · have hset := setPullup_registerBank c d pin b hpin
    have hupd := store_bit_update d.wire.regs (if pin < 8 then 0x0C else 0x0D) (pin % 8) b hk
    refine ⟨⟨hset.1, (getPullup_registerBank c _ pin r0 hpin).1, ?_⟩, ?_, ?_⟩
    · rw [(getPullup_registerBank c _ pin r0 hpin).2.1, hset.2]
      exact hupd.1
    · intro q hq hne
      rw [(getPullup_registerBank c _ q r0 hq).2.1, (getPullup_registerBank c d q r0 hq).2.1,
        hset.2]
      exact store_bit_update_other_pin d.wire.regs 0x0C 0x0D pin q b (by decide) hpin hq hne
    · intro reg hreg
      rw [(getPullup_registerBank c _ pin r0 hpin).2.2, hset.2]
      exact hupd.2.2 reg hreg

/-- C12 for pin 12 on a bank whose registers hold 0x0F: after
`setPolarity(12, true)` the polarity register B (0x03) holds 0x1F and
`getPolarity(12)` yields `true`, and `getPolarity(11)` still yields `true`. -/
theorem polarity_pullup_set_get_round_trip_witness :
    12 < 16 ∧
    ((setPolarity sampleConstants registerBank
        (new sampleConstants 0x27 (RegisterBank.filled 0x0F)) 12 true).1 = true ∧
     (getPolarity sampleConstants registerBank
        (setPolarity sampleConstants registerBank
          (new sampleConstants 0x27 (RegisterBank.filled 0x0F)) 12 true).2 12 false).1 = true ∧
     (getPolarity sampleConstants registerBank
        (setPolarity sampleConstants registerBank
          (new sampleConstants 0x27 (RegisterBank.filled 0x0F)) 12 true).2 12 false).2.1
       = true) ∧
    (setPolarity sampleConstants registerBank
        (new sampleConstants 0x27 (RegisterBank.filled 0x0F)) 12 true).2.wire.regs 0x03 = 0x1F ∧
    (getPolarity sampleConstants registerBank
        (setPolarity sampleConstants registerBank
          (new sampleConstants 0x27 (RegisterBank.filled 0x0F)) 12 true).2 11 false).2.1
      = true :=
  ⟨by decide,
   (polarity_pullup_set_get_round_trip sampleConstants
      (new sampleConstants 0x27 (RegisterBank.filled 0x0F)) 12 true false (by decide)).1.1,
   by decide, by decide⟩

/-! ## Register access and transport failures -/

/-- C17: contract of the register access layer, for every transport.
`writeReg(reg, value)` makes one transaction carrying exactly the bytes `reg`,
`value`; it returns `true` with the error field `MCP23017_OK` when the
completion status is 0 and `false` with `MCP23017_I2C_ERROR` otherwise.
`readReg(reg)` sends the byte `reg`; when the completion status is 0 and the
request for one byte reports one byte (the count as held by the `uint8_t`
variable `n`) it returns the byte read with the error field `MCP23017_OK`;
otherwise it returns 0 with `MCP23017_I2C_ERROR`, and after a non-zero
completion status it requests no byte.  The logs show that neither retries. -/
theorem register_access_layer_contract (c : Constants) (w : TwoWire σ) (d : MCP23017 σ)
    (reg value : Nat) :
    ((writeReg c w d reg value).2.calls =
        d.calls ++ [WireCall.beginTransmission d.addr, WireCall.write reg,
          WireCall.write value, WireCall.endTransmission] ∧
      (writeReg c w d reg value).2.wire = (writeTransaction w d.addr reg value d.wire).2) ∧
    ((writeTransaction w d.addr reg value d.wire).1 = 0 →
      (writeReg c w d reg value).1 = true ∧ (writeReg c w d reg value).2.error = c.OK) ∧
    ((writeTransaction w d.addr reg value d.wire).1 ≠ 0 →
      (writeReg c w d reg value).1 = false ∧
      (writeReg c w d reg value).2.error = c.I2C_ERROR) ∧
    ((addressTransaction w d.addr reg d.wire).1 = 0 →
      (byteRequest w d.addr reg d.wire).1 % 256 = 1 →
      readReg c w d reg =
        (toUint8 (w.read (byteRequest w d.addr reg d.wire).2).1,
         { addr := d.addr, wire := (w.read (byteRequest w d.addr reg d.wire).2).2,
           error := c.OK,
           calls := d.calls ++ [WireCall.beginTransmission d.addr, WireCall.write reg,
             WireCall.endTransmission, WireCall.requestFrom d.addr 1, WireCall.read] })) ∧
    ((addressTransaction w d.addr reg d.wire).1 = 0 →
      (byteRequest w d.addr reg d.wire).1 % 256 ≠ 1 →
      readReg c w d reg =
        (0,
         { addr := d.addr, wire := (byteRequest w d.addr reg d.wire).2,
           error := c.I2C_ERROR,
           calls := d.calls ++ [WireCall.beginTransmission d.addr, WireCall.write reg,
             WireCall.endTransmission, WireCall.requestFrom d.addr 1] })) ∧
    ((addressTransaction w d.addr reg d.wire).1 ≠ 0 →
      readReg c w d reg =
        (0,
         { addr := d.addr, wire := (addressTransaction w d.addr reg d.wire).2,
           error := c.I2C_ERROR,
           calls := d.calls ++ [WireCall.beginTransmission d.addr, WireCall.write reg,
             WireCall.endTransmission] })) := by
  refine ⟨?_, ?_, ?_, ?_, ?_, ?_⟩
  · rw [writeReg_outcome]
    exact ⟨rfl, rfl⟩
  · intro h
    rw [writeReg_outcome]
    simp [h]
  · intro h
    rw [writeReg_outcome]
    simp [h]
  · intro h hn
    exact readReg_of_success c w d reg h hn
  · intro h hn
    exact readReg_of_short_read c w d reg h hn
  · intro h
    exact readReg_of_status_ne_zero c w d reg h

/-- C17 on concrete transports: a register write answered with status 3 fails
after one transaction; a register read answered with status 0 and 0 bytes
returns 0 after the request; a read of register 0x12 of a bank holding 0xF4
returns 0xF4. -/
theorem register_access_layer_contract_witness :
    ((writeReg sampleConstants scripted
        (new sampleConstants 0x27 { statuses := [3], count := 1, byte := 0 }) 0x12 0x0A).1
        = false ∧
     (writeReg sampleConstants scripted
        (new sampleConstants 0x27 { statuses := [3], count := 1, byte := 0 }) 0x12 0x0A).2.error
        = sampleConstants.I2C_ERROR) ∧
    readReg sampleConstants scripted
        (new sampleConstants 0x27 { statuses := [0], count := 0, byte := 7 }) 0x12
      = (0,
         { addr := 0x27, wire := { statuses := [], count := 0, byte := 7 },
           error := sampleConstants.I2C_ERROR,
           calls := [WireCall.beginTransmission 0x27, WireCall.write 0x12,
             WireCall.endTransmission, WireCall.requestFrom 0x27 1] }) ∧
    (readReg sampleConstants registerBank
        (new sampleConstants 0x27 (RegisterBank.filled 0xF4)) 0x12).1 = 0xF4 :=
  ⟨(register_access_layer_contract sampleConstants scripted
      (new sampleConstants 0x27 { statuses := [3], count := 1, byte := 0 }) 0x12 0x0A).2.2.1
      (by decide),
   (register_access_layer_contract sampleConstants scripted
      (new sampleConstants 0x27 { statuses := [0], count := 0, byte := 7 }) 0x12 0).2.2.2.2.1
      (by decide) (by decide),
   by decide⟩

/-- C16: a single pin read-modify-write is abandoned when its read fails,
for every transport (the error constants `MCP23017_I2C_ERROR` and
`MCP23017_OK` being distinct).  For `pinMode` with a valid mode,
`digitalWrite`, `setPolarity` and `setPullup` with a pin below 16: if the
read of the register fails, the operation returns `false` with the error
field `MCP23017_I2C_ERROR`, and the log holds the failed read only (one
transaction carrying the register address, followed by at most the byte
request): no write transaction is issued and nothing is retried. -/
theorem read_modify_write_abandoned_on_read_failure (c : Constants) (w : TwoWire σ)
    (d : MCP23017 σ) (pin mode value : Nat) (flag : Bool) (hpin : pin < 16)
    (hi2c : c.I2C_ERROR ≠ c.OK)
    (hmode : mode = c.INPUT ∨ mode = c.INPUT_PULLUP ∨ mode = c.OUTPUT) :
    AbandonedOnReadFailure c w d (if pin < 8 then 0x00 else 0x01) (pinMode c w d pin mode) ∧
    AbandonedOnReadFailure c w d (if pin < 8 then 0x12 else 0x13)
      (digitalWrite c w d pin value) ∧
    AbandonedOnReadFailure c w d (if pin < 8 then 0x02 else 0x03)
      (setPolarity c w d pin flag) ∧
    AbandonedOnReadFailure c w d (if pin < 8 then 0x0C else 0x0D)
      (setPullup c w d pin flag) := by
  have hp : ¬ pin > 15 := by omega
  have hvalid : ¬ (mode ≠ c.INPUT ∧ mode ≠ c.INPUT_PULLUP ∧ mode ≠ c.OUTPUT) := by
    rintro ⟨h1, h2, h3⟩
    rcases hmode with h | h | h
    · exact h1 h
    · exact h2 h
    · exact h3 h
  refine ⟨?_, ?_, ?_, ?_⟩
  · have hreg := register_of_pin pin MCP23017_DDR_A MCP23017_DDR_B
    simp only [MCP23017_DDR_A, MCP23017_DDR_B] at hreg
    constructor
    · intro h
      unfold pinMode
      rw [if_neg hp, if_neg hvalid]
      simp only [MCP23017_DDR_A, MCP23017_DDR_B, hreg, readReg_of_status_ne_zero c w d _ h]
      simp [stoppedAfterAddressing, hi2c]
    · intro h hn
      unfold pinMode
      rw [if_neg hp, if_neg hvalid]
      simp only [MCP23017_DDR_A, MCP23017_DDR_B, hreg, readReg_of_short_read c w d _ h hn]
      simp [stoppedAfterRequest, hi2c]
  · have hreg := register_of_pin pin MCP23017_GPIOA MCP23017_GPIOB
    simp only [MCP23017_GPIOA, MCP23017_GPIOB] at hreg
    constructor
    · intro h
      unfold digitalWrite
      rw [if_neg hp]
      simp only [MCP23017_GPIOA, MCP23017_GPIOB, hreg, readReg_of_status_ne_zero c w d _ h]
      simp [stoppedAfterAddressing, hi2c]
    · intro h hn
      unfold digitalWrite
      rw [if_neg hp]
      simp only [MCP23017_GPIOA, MCP23017_GPIOB, hreg, readReg_of_short_read c w d _ h hn]
      simp [stoppedAfterRequest, hi2c]
  · have hreg := register_of_pin pin MCP23017_POL_A MCP23017_POL_B
    simp only [MCP23017_POL_A, MCP23017_POL_B] at hreg
    constructor
    · intro h
      unfold setPolarity
      rw [if_neg hp]
      simp only [MCP23017_POL_A, MCP23017_POL_B, hreg, readReg_of_status_ne_zero c w d _ h]
      simp [stoppedAfterAddressing, hi2c]
    · intro h hn
      unfold setPolarity
      rw [if_neg hp]
      simp only [MCP23017_POL_A, MCP23017_POL_B, hreg, readReg_of_short_read c w d _ h hn]
      simp [stoppedAfterRequest, hi2c]
  · have hreg := register_of_pin pin MCP23017_PUR_A MCP23017_PUR_B
    simp only [MCP23017_PUR_A, MCP23017_PUR_B] at hreg
    constructor
    · intro h
      unfold setPullup
      rw [if_neg hp]
      simp only [MCP23017_PUR_A, MCP23017_PUR_B, hreg, readReg_of_status_ne_zero c w d _ h]
      simp [stoppedAfterAddressing, hi2c]
    · intro h hn
      unfold setPullup
      rw [if_neg hp]
      simp only [MCP23017_PUR_A, MCP23017_PUR_B, hreg, readReg_of_short_read c w d _ h hn]
      simp [stoppedAfterRequest, hi2c]

/-- C16 for `digitalWrite(10, HIGH)` on a bank that holds 0xF0 and delivers no
byte: the call returns `false` with `MCP23017_I2C_ERROR` after the addressing
of register 0x13 and the byte request, and the registers are as before. -/
theorem read_modify_write_abandoned_on_read_failure_witness :
    10 < 16 ∧ sampleConstants.I2C_ERROR ≠ sampleConstants.OK ∧
    digitalWrite sampleConstants silentBank
        (new sampleConstants 0x27 (RegisterBank.filled 0xF0)) 10 HIGH
      = (false,
         { addr := 0x27,
           wire := { regs := (RegisterBank.filled 0xF0).regs, txbuf := [], pointer := 0x13,
                     rxbuf := [] },
           error := sampleConstants.I2C_ERROR,
           calls := [WireCall.beginTransmission 0x27, WireCall.write 0x13,
             WireCall.endTransmission, WireCall.requestFrom 0x27 1] }) :=
  ⟨by decide, by decide,
   (read_modify_write_abandoned_on_read_failure sampleConstants silentBank
      (new sampleConstants 0x27 (RegisterBank.filled 0xF0)) 10 sampleConstants.OUTPUT HIGH true
      (by decide) (by decide) (Or.inr (Or.inr rfl))).2.1.2 (by decide) (by decide)⟩

/-- C18: return value and error field always agree (the error constants
`MCP23017_PIN_ERROR`, `MCP23017_I2C_ERROR`, `MCP23017_VALUE_ERROR` and
`MCP23017_PORT_ERROR` being different from `MCP23017_OK`).  For every public
operation returning `bool`, every argument, every transport and every prior
driver state, the operation returns `true` if and only if the error field
right after the call is `MCP23017_OK`. -/
theorem return_value_agrees_with_error_field (c : Constants) (w : TwoWire σ)
    (d : MCP23017 σ) (pin port mode value : Nat) (flag : Bool)
    (hpinerr : c.PIN_ERROR ≠ c.OK) (hi2c : c.I2C_ERROR ≠ c.OK)
    (hvalerr : c.VALUE_ERROR ≠ c.OK) (hporterr : c.PORT_ERROR ≠ c.OK) :
    ((begin c w d).1 = true ↔ (begin c w d).2.error = c.OK) ∧
    ((isConnected c w d).1 = true ↔ (isConnected c w d).2.error = c.OK) ∧
    ((pinMode c w d pin mode).1 = true ↔ (pinMode c w d pin mode).2.error = c.OK) ∧
    ((digitalWrite c w d pin value).1 = true ↔
      (digitalWrite c w d pin value).2.error = c.OK) ∧
    ((setPolarity c w d pin flag).1 = true ↔
      (setPolarity c w d pin flag).2.error = c.OK) ∧
    ((getPolarity c w d pin flag).1 = true ↔
      (getPolarity c w d pin flag).2.2.error = c.OK) ∧
    ((setPullup c w d pin flag).1 = true ↔ (setPullup c w d pin flag).2.error = c.OK) ∧
    ((getPullup c w d pin flag).1 = true ↔
      (getPullup c w d pin flag).2.2.error = c.OK) ∧
    ((pinMode8 c w d port value).1 = true ↔ (pinMode8 c w d port value).2.error = c.OK) ∧
    ((write8 c w d port value).1 = true ↔ (write8 c w d port value).2.error = c.OK) ∧
    ((setPolarity8 c w d port value).1 = true ↔
      (setPolarity8 c w d port value).2.error = c.OK) ∧
    ((getPolarity8 c w d port value).1 = true ↔
      (getPolarity8 c w d port value).2.2.error = c.OK) ∧
    ((setPullup8 c w d port value).1 = true ↔
      (setPullup8 c w d port value).2.error = c.OK) ∧
    ((getPullup8 c w d port value).1 = true ↔
      (getPullup8 c w d port value).2.2.error = c.OK) := by
  exact ⟨begin_true_iff_error_ok c w d hi2c,
    isConnected_true_iff_error_ok c w d hi2c,
    pinMode_true_iff_error_ok c w d pin mode hpinerr hvalerr,
    digitalWrite_true_iff_error_ok c w d pin value hpinerr,
    setPolarity_true_iff_error_ok c w d pin flag hpinerr,
    getPolarity_true_iff_error_ok c w d pin flag hpinerr,
    setPullup_true_iff_error_ok c w d pin flag hpinerr,
    getPullup_true_iff_error_ok c w d pin flag hpinerr,
    pinMode8_true_iff_error_ok c w d port value hporterr,
    write8_true_iff_error_ok c w d port value hporterr,
    setPolarity8_true_iff_error_ok c w d port value hporterr,
    getPolarity8_true_iff_error_ok c w d port value hporterr,
    setPullup8_true_iff_error_ok c w d port value hporterr,
    getPullup8_true_iff_error_ok c w d port value hporterr⟩

/-- C18 with the sample constants on a transport that answers the first
transaction with status 2: `begin()` and `pinMode(16, 7)` return `true`
exactly when they leave the error field `MCP23017_OK`. -/
theorem return_value_agrees_with_error_field_witness :
    sampleConstants.PIN_ERROR ≠ sampleConstants.OK ∧
    sampleConstants.I2C_ERROR ≠ sampleConstants.OK ∧
    sampleConstants.VALUE_ERROR ≠ sampleConstants.OK ∧
    sampleConstants.PORT_ERROR ≠ sampleConstants.OK ∧
    ((begin sampleConstants scripted
        (new sampleConstants 0x27 { statuses := [2], count := 1, byte := 0 })).1 = true ↔
      (begin sampleConstants scripted
        (new sampleConstants 0x27 { statuses := [2], count := 1, byte := 0 })).2.error
        = sampleConstants.OK) ∧
    ((pinMode sampleConstants scripted
        (new sampleConstants 0x27 { statuses := [2], count := 1, byte := 0 }) 16 7).1 = true ↔
      (pinMode sampleConstants scripted
        (new sampleConstants 0x27 { statuses := [2], count := 1, byte := 0 }) 16 7).2.error
        = sampleConstants.OK) :=
  ⟨by decide, by decide, by decide, by decide,
   (return_value_agrees_with_error_field sampleConstants scripted
      (new sampleConstants 0x27 { statuses := [2], count := 1, byte := 0 }) 16 2 7 0 true
      (by decide) (by decide) (by decide) (by decide)).1,
   (return_value_agrees_with_error_field sampleConstants scripted
      (new sampleConstants 0x27 { statuses := [2], count := 1, byte := 0 }) 16 2 7 0 true
      (by decide) (by decide) (by decide) (by decide)).2.2.1⟩

end MCP23017

namespace MultiMap

/-! ## Auxiliary facts -/

/-- An access with an index below `size` succeeds. -/
theorem readAt_of_lt (a : Nat → Int) (size i : Nat) (h : i < size) :
    readAt a size (i : Int) = some (a i) := by
  unfold readAt
  have h' : (0 : Int) ≤ (i : Int) ∧ (i : Int) < (size : Int) := by omega
  simp [h']

/-- The access with index 0 into a table that is not empty. -/
theorem readAt_zero (a : Nat → Int) (size : Nat) (h : 1 ≤ size) :
    readAt a size 0 = some (a 0) := by
  have := readAt_of_lt a size 0 (by omega)
  simpa using this

/-- The access with index `i - 1` for `i` from 1 to `size`. -/
theorem readAt_pred (a : Nat → Int) (size i : Nat) (h1 : 1 ≤ i) (h : i ≤ size) :
    readAt a size ((i : Int) - 1) = some (a (i - 1)) := by
  have hcast : ((i : Int) - 1) = ((i - 1 : Nat) : Int) := by omega
  rw [hcast]
  exact readAt_of_lt a size (i - 1) (by omega)

/-- The search loop stops at the first position from `pos` on where the
value is not above the table entry. -/
theorem search_eq_some (value : Int) (_in : Nat → Int) (size : Nat) :
    ∀ (gap fuel pos p : Nat), p = pos + gap → gap < fuel → p < size → p < 256 →
      (∀ k, pos ≤ k → k < p → value > _in k) → ¬ value > _in p →
      search value _in size fuel pos = some p := by
  intro gap
  induction gap with
  | zero =>
    intro fuel pos p hp hfuel hsize _ _ hstop
    have hpp : p = pos := by omega
    subst hpp
    cases fuel with
    | zero => omega
    | succ fuel =>
      simp [search, readAt_of_lt _in size p hsize, hstop]
  | succ gap ih =>
    intro fuel pos p hp hfuel hsize h256 hbelow hstop
    cases fuel with
    | zero => omega
    | succ fuel =>
      have hpos : pos < size := by omega
      have hgo : value > _in pos := hbelow pos (Nat.le_refl _) (by omega)
      have hwrap : (pos + 1) % 256 = pos + 1 := Nat.mod_eq_of_lt (by omega)
      simp only [search, readAt_of_lt _in size pos hpos, hgo, if_true, hwrap]
      exact ih fuel (pos + 1) p (by omega) (by omega) hsize h256
        (fun k hk hkp => hbelow k (by omega) hkp) hstop

/-- The statements after the search loop, at a position `pos` from 1 to
`size - 1` whose table entry differs from that below it. -/
theorem interpolate_eq (value : Int) (_in _out : Nat → Int) (size pos : Nat)
    (h1 : 1 ≤ pos) (hsize : pos < size) (hne : _in pos - _in (pos - 1) ≠ 0) :
    interpolate value _in _out size pos =
      if value = _in pos then some (_out pos)
      else some (Int.tdiv ((value - _in (pos - 1)) * (_out pos - _out (pos - 1)))
        (_in pos - _in (pos - 1)) + _out (pos - 1)) := by
  unfold interpolate
  simp only [readAt_of_lt _in size pos hsize, readAt_of_lt _out size pos hsize,
    readAt_pred _in size pos h1 (by omega), readAt_pred _out size pos h1 (by omega)]
  by_cases hv : value = _in pos
  · simp [hv]
  · simp [hv, hne]

/-- A value at or below the first table entry yields the first output. -/
theorem multiMap_of_le_first (value : Int) (_in _out : Nat → Int) (size : Nat)
    (hsize : 1 ≤ size) (h : value ≤ _in 0) :
    multiMap value _in _out size = some (_out 0) := by
  unfold multiMap
  simp [readAt_zero _in size hsize, readAt_zero _out size hsize, h]

/-- A value above the first table entry and at or above the last one yields
the last output. -/
theorem multiMap_of_ge_last (value : Int) (_in _out : Nat → Int) (size : Nat)
    (hsize : 1 ≤ size) (hfirst : value > _in 0) (hlast : value ≥ _in (size - 1)) :
    multiMap value _in _out size = some (_out (size - 1)) := by
  have hnot : ¬ value ≤ _in 0 := by omega
  unfold multiMap
  simp [readAt_zero _in size hsize, hnot, readAt_pred _in size size hsize (Nat.le_refl _),
    readAt_pred _out size size hsize (Nat.le_refl _), hlast]

/-- A value strictly between the first and the last table entry is handled by
the statements after the search loop, at the position the loop leaves. -/
theorem multiMap_of_search (value : Int) (_in _out : Nat → Int) (size pos : Nat)
    (hsize : 1 ≤ size) (hfirst : value > _in 0) (hlast : value < _in (size - 1))
    (hpos : search value _in size searchFuel 1 = some pos) :
    multiMap value _in _out size = interpolate value _in _out size pos := by
  have hnot : ¬ value ≤ _in 0 := by omega
  have hnot' : ¬ value ≥ _in (size - 1) := by omega
  unfold multiMap
  simp [readAt_zero _in size hsize, hnot, readAt_pred _in size size hsize (Nat.le_refl _),
    hnot', hpos]

/-- Truncating division of `a * delta` by `d` for `0 < a < d` lies between 0
and `delta`. -/
theorem tdiv_between (a d delta : Int) (ha : 0 < a) (had : a < d) :
    min 0 delta ≤ Int.tdiv (a * delta) d ∧ Int.tdiv (a * delta) d ≤ max 0 delta := by
  have hd : 0 < d := by omega
  by_cases hdelta : 0 ≤ delta
  · have hnn : 0 ≤ a * delta := Int.mul_nonneg (by omega) hdelta
    rw [Int.tdiv_eq_ediv hnn (by omega)]
    have h0 : 0 ≤ a * delta / d := Int.ediv_nonneg hnn (by omega)
    have h1 : a * delta / d ≤ delta := by
      apply Int.ediv_le_of_le_mul hd
      nlinarith
    rw [min_eq_left hdelta, max_eq_right hdelta]
    exact ⟨h0, h1⟩
  · have hneg : delta < 0 := by omega
    have hnn : 0 ≤ a * (-delta) := Int.mul_nonneg (by omega) (by omega)
    have heq : a * delta = -(a * (-delta)) := by ring
    rw [heq, Int.neg_tdiv, Int.tdiv_eq_ediv hnn (by omega)]
    have h0 : 0 ≤ a * (-delta) / d := Int.ediv_nonneg hnn (by omega)
    have h1 : a * (-delta) / d ≤ -delta := by
      apply Int.ediv_le_of_le_mul hd
      nlinarith
    rw [min_eq_right (by omega), max_eq_left (by omega)]
    constructor <;> omega

/-- The input table [0, 10, 20, 40] is strictly increasing. -/
theorem sample_table_increasing : StrictlyIncreasing (ofList [0, 10, 20, 40]) 4 := by
  intro i j hij hj
  have hj' : j = 1 ∨ j = 2 ∨ j = 3 := by omega
  rcases hj' with h | h | h <;> subst h
  · have hi' : i = 0 := by omega
    subst hi'
    decide
  · have hi' : i = 0 ∨ i = 1 := by omega
    rcases hi' with h | h <;> subst h <;> decide
  · have hi' : i = 0 ∨ i = 1 ∨ i = 2 := by omega
    rcases hi' with h | h | h <;> subst h <;> decide

/-- C14: `multiMap` constrains the value to the range of the input table.
For every table of `size >= 1` entries, `multiMap` returns `out[0]` for every
value at or below `in[0]`, and `out[size-1]` for every value at or above
`in[size-1]` that is greater than `in[0]`. -/
theorem multiMap_constrains_to_range (value : Int) (_in _out : Nat → Int) (size : Nat)
    (hsize : 1 ≤ size) :
    (value ≤ _in 0 → multiMap value _in _out size = some (_out 0)) ∧
    (value ≥ _in (size - 1) → value > _in 0 →
      multiMap value _in _out size = some (_out (size - 1))) := by
  exact ⟨fun h => multiMap_of_le_first value _in _out size hsize h,
    fun hlast hfirst => multiMap_of_ge_last value _in _out size hsize hfirst hlast⟩

/-- C14 on the table in = [0, 10, 20, 40], out = [0, 100, 50, 70]: the value -3
maps to 0 and the value 45 maps to 70. -/
theorem multiMap_constrains_to_range_witness :
    1 ≤ 4 ∧
    multiMap (-3) (ofList [0, 10, 20, 40]) (ofList [0, 100, 50, 70]) 4 = some 0 ∧
    multiMap 45 (ofList [0, 10, 20, 40]) (ofList [0, 100, 50, 70]) 4 = some 70 :=
  ⟨by decide,
   (multiMap_constrains_to_range (-3) (ofList [0, 10, 20, 40]) (ofList [0, 100, 50, 70]) 4
      (by decide)).1 (by decide),
   (multiMap_constrains_to_range 45 (ofList [0, 10, 20, 40]) (ofList [0, 100, 50, 70]) 4
      (by decide)).2 (by decide) (by decide)⟩

/-- C13: `multiMap` returns the tabulated output at every tabulated input.
For every table of `size >= 1` entries (`size` being a `uint8_t`) whose input
entries are strictly increasing, and every index `i < size`,
`multiMap(in[i], in, out, size)` is `out[i]`. -/
theorem multiMap_at_table_point (_in _out : Nat → Int) (size i : Nat)
    (hsize : 1 ≤ size) (h256 : size < 256) (hinc : StrictlyIncreasing _in size)
    (hi : i < size) :
    multiMap (_in i) _in _out size = some (_out i) := by
  by_cases h0 : i = 0
  · subst h0
    exact multiMap_of_le_first _ _in _out size hsize (Int.le_refl _)
  · have hfirst : _in i > _in 0 := hinc 0 i (by omega) hi
    by_cases hl : i = size - 1
    · have h := multiMap_of_ge_last (_in i) _in _out size hsize hfirst
        (by rw [hl])
      rw [h, hl]
    · have hlast : _in i < _in (size - 1) := hinc i (size - 1) (by omega) (by omega)
      have hpos : search (_in i) _in size searchFuel 1 = some i :=
        search_eq_some (_in i) _in size (i - 1) searchFuel 1 i (by omega)
          (by unfold searchFuel; omega) hi (by omega)
          (fun k _ hk => hinc k i hk hi) (by omega)
      have hne : _in i - _in (i - 1) ≠ 0 := by
        have := hinc (i - 1) i (by omega) hi
        omega
      rw [multiMap_of_search (_in i) _in _out size i hsize hfirst hlast hpos,
        interpolate_eq (_in i) _in _out size i (by omega) hi hne]
      simp

/-- C13 on the table in = [0, 10, 20, 40], out = [0, 100, 50, 70] at index 2:
the value 20 maps to 50. -/
theorem multiMap_at_table_point_witness :
    1 ≤ 4 ∧ 4 < 256 ∧ StrictlyIncreasing (ofList [0, 10, 20, 40]) 4 ∧ 2 < 4 ∧
    multiMap 20 (ofList [0, 10, 20, 40]) (ofList [0, 100, 50, 70]) 4 = some 50 :=
  ⟨by decide, by decide, sample_table_increasing, by decide,
   multiMap_at_table_point (ofList [0, 10, 20, 40]) (ofList [0, 100, 50, 70]) 4 2
     (by decide) (by decide) sample_table_increasing (by decide)⟩

/-! ## Safety and interpolation -/

/-- C20: `multiMap` interpolates inside the enclosing segment, in exact
integer arithmetic.  For every table of `size >= 2` entries (`size` being a
`uint8_t`) whose input entries are strictly increasing, every `i` with
`1 <= i < size` and every value with `in[i-1] < value < in[i]`, the result is
`(value - in[i-1]) * (out[i] - out[i-1]) / (in[i] - in[i-1]) + out[i-1]` with
truncating division, and it lies between `out[i-1]` and `out[i]` inclusive. -/
theorem multiMap_interpolates_in_segment (value : Int) (_in _out : Nat → Int)
    (size i : Nat) (hsize : 2 ≤ size) (h256 : size < 256)
    (hinc : StrictlyIncreasing _in size) (h1 : 1 ≤ i) (hi : i < size)
    (hlow : _in (i - 1) < value) (hhigh : value < _in i) :
    multiMap value _in _out size =
      some (Int.tdiv ((value - _in (i - 1)) * (_out i - _out (i - 1)))
        (_in i - _in (i - 1)) + _out (i - 1)) ∧
    min (_out (i - 1)) (_out i)
      ≤ Int.tdiv ((value - _in (i - 1)) * (_out i - _out (i - 1)))
          (_in i - _in (i - 1)) + _out (i - 1) ∧
    Int.tdiv ((value - _in (i - 1)) * (_out i - _out (i - 1)))
        (_in i - _in (i - 1)) + _out (i - 1)
      ≤ max (_out (i - 1)) (_out i) := by
  have hmono : ∀ a b, a ≤ b → b < size → _in a ≤ _in b := by
    intro a b hab hb
    by_cases h : a = b
    · rw [h]
    · exact Int.le_of_lt (hinc a b (by omega) hb)
  have hfirst : value > _in 0 := by
    have := hmono 0 (i - 1) (by omega) (by omega)
    omega
  have hlast : value < _in (size - 1) := by
    have := hmono i (size - 1) (by omega) (by omega)
    omega
  have hpos : search value _in size searchFuel 1 = some i :=
    search_eq_some value _in size (i - 1) searchFuel 1 i (by omega)
      (by unfold searchFuel; omega) hi (by omega)
      (fun k _ hk => by
        have := hmono k (i - 1) (by omega) (by omega)
        omega)
      (by omega)
  have hbound := tdiv_between (value - _in (i - 1)) (_in i - _in (i - 1))
    (_out i - _out (i - 1)) (by omega) (by omega)
  refine ⟨?_, ?_, ?_⟩
  · rw [multiMap_of_search value _in _out size i (by omega) hfirst hlast hpos,
      interpolate_eq value _in _out size i h1 hi (by omega)]
    have hv : ¬ value = _in i := by omega
    simp [hv]
  · have h := hbound.1
    rcases le_total (_out (i - 1)) (_out i) with hle | hle
    · rw [min_eq_left hle]
      rw [min_eq_left (by omega)] at h
      omega
    · rw [min_eq_right hle]
      rw [min_eq_right (by omega)] at h
      omega
  · have h := hbound.2
    rcases le_total (_out (i - 1)) (_out i) with hle | hle
    · rw [max_eq_right hle]
      rw [max_eq_right (by omega)] at h
      omega
    · rw [max_eq_left hle]
      rw [max_eq_left (by omega)] at h
      omega

/-- C20 on the table in = [0, 10, 20, 40], out = [0, 100, 50, 70] in the
descending segment 1 to 2: the value 19 maps to (19 - 10) * (50 - 100) / 10 + 100
= 55, which lies between 50 and 100. -/
theorem multiMap_interpolates_in_segment_witness :
    2 ≤ 4 ∧ 4 < 256 ∧ StrictlyIncreasing (ofList [0, 10, 20, 40]) 4 ∧
    ofList [0, 10, 20, 40] (2 - 1) < 19 ∧ 19 < ofList [0, 10, 20, 40] 2 ∧
    multiMap 19 (ofList [0, 10, 20, 40]) (ofList [0, 100, 50, 70]) 4 = some 55 :=
  ⟨by decide, by decide, sample_table_increasing, by decide, by decide,
   (multiMap_interpolates_in_segment 19 (ofList [0, 10, 20, 40]) (ofList [0, 100, 50, 70])
      4 2 (by decide) (by decide) sample_table_increasing (by decide) (by decide)
      (by decide) (by decide)).1⟩

end MultiMap
